import Mathlib

/-!
The apictl commands `add api` (cluster synchronization) and `init` (definition resolver)

A shallow embedding of `import-export-cli/cmd/addApi.go` and
`import-export-cli/cmd/init.go`.

Effects are made explicit.  Everything the process does to the outside world
(lines printed, `kubectl` invocations, file operations, error reports) is
appended to a chronological trace of events; everything the outside world
answers (does a command succeed, what is on disk) is read from a `World`
(`InitWorld` for `init`).  For `add api` the answer of an external command may
depend on the whole history so far.  Log lines (`utils.Logln`) and the copies
of the `kubectl` output are not recorded.

A run of `add api` ends either by returning or by exiting the process
(`utils.HandleErrorAndExit`, `log.Fatal`); a deferred call runs only in the
first case.

Helpers of the repository that are not in the two source files are either
fields of the world (constants, parsers, `v2.Swagger2Populate`,
`utils.EnvSubstitute`) or modelled from the specification
(`utils.HandleErrorAndExit`, `utils.MergeJSON`, the JSON form of
`v2.APIDefinition`); the latter say so in their documentation.

Path conventions are those of a Unix build of Go (`/` is the only separator).
-/

set_option autoImplicit false

namespace Apictl

/-! ## Go values -/

/-- A Go `error` value, identified by its message.  A possibly-nil error is an `Option Err`. -/
abbrev Err := String

/-- A Go slice of strings: `nil` is the nil slice, `mk xs` a non-nil slice holding `xs`. -/
inductive GoSlice where
  | nil
  | mk (xs : List String)
  deriving DecidableEq

/-- Elements of a slice (`nil` has none). -/
def GoSlice.toList : GoSlice → List String
  | .nil => []
  | .mk xs => xs

/-- Go `len(s)`. -/
def GoSlice.len (s : GoSlice) : Nat := s.toList.length

/-- Go `append(s, a)`: the result is never nil. -/
def GoSlice.append (s : GoSlice) (a : String) : GoSlice := .mk (s.toList ++ [a])

/-- What `fi.Mode()` says about a path: `IsDir()`, `IsRegular()`, or neither
(device, named pipe, socket, ...). -/
inductive FileMode where
  | dir
  | regular
  | other
  deriving DecidableEq

/-! ## Path functions (`path/filepath`, Unix) -/

/-- Go `filepath.FromSlash`: the identity where the separator is `/`. -/
def filepath_FromSlash (s : String) : String := s

/-- Loop of `filepath.Ext`, run over the path read backwards; `acc` is the suffix already passed. -/
def extAux : List Char → List Char → List Char
  | [], _ => []
  | c :: rest, acc =>
    if c = '/' then []
    else if c = '.' then c :: acc
    else extAux rest (c :: acc)

/-- Go `filepath.Ext`: the suffix beginning at the final dot of the final element, or `""`. -/
def filepath_Ext (path : String) : String := String.mk (extAux path.data.reverse [])

/-- Go `filepath.Base`: the last element of the path, trailing slashes removed;
`"."` for the empty path and `"/"` for a path of slashes only. -/
def filepath_Base (path : String) : String :=
  if path.data = [] then "."
  else
    let stripped := path.data.reverse.dropWhile (fun c => c = '/')
    let last := stripped.takeWhile (fun c => c ≠ '/')
    if last = [] then "/" else String.mk last.reverse

/-! ## The custom resource (`wso2v1alpha1.API`) -/

/-- Interceptor references of the custom resource. -/
structure Interceptors where
  Ballerina : String
  Java : GoSlice
  deriving DecidableEq

/-- The `Spec.Definition` part of the custom resource; `rest` holds the fields this
command never touches. -/
structure Definition where
  SwaggerConfigmapName : String
  Interceptors : Interceptors
  rest : List (String × String)
  deriving DecidableEq

/-- The `Spec` part of the custom resource; `rest` holds the fields this command never touches. -/
structure APISpec where
  Definition : Definition
  Replicas : Int
  Override : Bool
  UpdateTimeStamp : String
  rest : List (String × String)
  deriving DecidableEq

/-- The custom resource; `rest` holds the fields this command never touches
(kind, apiVersion, labels, ...). -/
structure API where
  Name : String
  Namespace : String
  Spec : APISpec
  rest : List (String × String)
  deriving DecidableEq

/-! ## Events and the world -/

/-- What the process does, in order. -/
inductive Event where
  /-- Go `fmt.Println(s)`. -/
  | println (s : String)
  /-- Command `kubectl <operation> configmap <configMapName> --from-file <filePath> -n <namespace>`,
  with the error of `cmd.Run()`. -/
  | configmap (operation configMapName filePath ns : String) (err : Option Err)
  /-- Go `ioutil.TempFile` created the file `name`. -/
  | tempFile (name : String)
  /-- Go `tmpFile.Write(byteVal)`, where `byteVal` is the serialized `content`. -/
  | write (name : String) (content : API) (err : Option Err)
  /-- Go `tmpFile.Close()`. -/
  | close (name : String) (err : Option Err)
  /-- Command `kubectl apply -f <file> -n <namespace>`, the file holding `content`,
  with the error of `cmd.Run()`. -/
  | apply (file : String) (content : API) (ns : String) (err : Option Err)
  /-- Go `os.Remove(name)`. -/
  | remove (name : String)
  /-- Call of `utils.HandleErrorAndExit(msg, err)`. -/
  | handleErrorAndExit (msg : String) (err : Option Err)
  /-- Go `log.Fatal(msg, err)`. -/
  | logFatal (msg : String) (err : Err)
  deriving DecidableEq

/-- Everything outside the process. -/
structure World where
  /-- Value of `configVars.Config.KubernetesMode` in the main config file. -/
  KubernetesMode : Bool
  /-- Constant `k8sUtils.K8sCreate`. -/
  K8sCreate : String
  /-- Go `os.Stat(path)`. -/
  stat : String → Except Err FileMode
  /-- Go `filepath.Join(a, b)`. -/
  Join : String → String → String
  /-- Error of `os.Open(path)`. -/
  osOpen : String → Option Err
  /-- Error of `file.Readdir(1)` on the opened `path` (`io.EOF` when the directory is empty). -/
  readdir1 : String → Option Err
  /-- Paths that `filepath.Walk(root, fn)` hands to `fn`, in order. -/
  walk : String → List String
  /-- Error of running `kubectl <operation> configmap <name> --from-file <file> -n <namespace>`
  after the given history. -/
  kubectlConfigmap : List Event → String → String → String → String → Option Err
  /-- The embedded `/kubernetes_resources/api_cr.yaml`, unmarshalled. -/
  template : Except Err API
  /-- Error of `yaml.Marshal`. -/
  yamlMarshal : API → Option Err
  /-- Result of `ioutil.TempFile(os.TempDir(), "apicr-*.yaml")` after the given history. -/
  tempFile : List Event → Except Err String
  /-- Error of `tmpFile.Write` after the given history. -/
  write : List Event → String → Option Err
  /-- Error of `tmpFile.Close` after the given history. -/
  close : List Event → String → Option Err
  /-- Error of running `kubectl apply -f <file> -n <namespace>` after the given history. -/
  kubectlApply : List Event → String → String → Option Err

/-- How a piece of the program ends: it returns a value, or the process exits. -/
inductive Outcome (α : Type) where
  | ret (a : α)
  | exit (code : Nat)
  deriving DecidableEq

/-- Result of running a piece of the program: how it ended and the trace so far. -/
structure Res (α : Type) where
  out : Outcome α
  trace : List Event

/-- Sequencing: continue with `k` when the first part returned, stop when it exited. -/
def Res.bind {α β : Type} (r : Res α) (k : α → List Event → Res β) : Res β :=
  match r.out with
  | .ret a => k a r.trace
  | .exit c => ⟨.exit c, r.trace⟩

/-- Modelled from the spec: `utils.HandleErrorAndExit` (package `utils`, not under src/).
As its name says and as the spec has it for configuration-object errors ("fatal",
"abort the remaining steps"), it reports the message with the given cause and
terminates the process with status 1. -/
def HandleErrorAndExit {α : Type} (tr : List Event) (msg : String) (err : Option Err) : Res α :=
  ⟨.exit 1, tr ++ [.handleErrorAndExit msg err]⟩

/-- Go `log.Fatal`: print, then `os.Exit(1)`.  The process terminates at once:
deferred functions are not run. -/
def log_Fatal {α : Type} (tr : List Event) (msg : String) (err : Err) : Res α :=
  ⟨.exit 1, tr ++ [.logFatal msg err]⟩

/-! ## addApi.go -/

/-- The flag-backed package variables of the `add api` command. -/
structure Flags where
  flagApiName : String
  flagSwaggerFilePath : String
  flagReplicas : Int
  flagNamespace : String
  flagOverride : Bool

/-- Function `createConfigMapWithNamespace`: run the `kubectl` command and return its error. -/
def createConfigMapWithNamespace (w : World) (tr : List Event)
    (configMapName filePath ns operation : String) : Option Err × List Event :=
  let err := w.kubectlConfigmap tr operation configMapName filePath ns
  (err, tr ++ [.configmap operation configMapName filePath ns err])

/-- Lines 141-159 of `createAPI`: the values assigned to the unmarshalled template. -/
def createAPI_assign (apiConfigMap : API) (name ns configMapName : String) (replicas : Int)
    (timestamp balInterceptors : String) (override : Bool) (javaInterceptors : GoSlice) : API :=
  { apiConfigMap with
    Name := name
    Namespace := ns
    Spec :=
      { apiConfigMap.Spec with
        Replicas := replicas
        Override := override
        UpdateTimeStamp :=
          if timestamp ≠ "" then timestamp else apiConfigMap.Spec.UpdateTimeStamp
        Definition :=
          { apiConfigMap.Spec.Definition with
            SwaggerConfigmapName := configMapName
            Interceptors :=
              { Ballerina :=
                  if balInterceptors ≠ "" then balInterceptors
                  else apiConfigMap.Spec.Definition.Interceptors.Ballerina
                Java :=
                  if javaInterceptors.len > 0 then javaInterceptors else .mk [] } } } }

/-- Function `createAPI`: fill the template, write it to a temporary file, `kubectl apply` it.
`defer os.Remove(tmpFile.Name())` runs when the function returns, not when the
process exits. -/
def createAPI (w : World) (tr : List Event) (name ns configMapName : String)
    (replicas : Int) (timestamp balInterceptors : String) (override : Bool)
    (javaInterceptors : GoSlice) : Res Unit :=
  match w.template with
  | .error errUnmarshal =>
    HandleErrorAndExit tr "Error unmarshal api configmap into struct " (some errUnmarshal)
  | .ok template =>
    let apiConfigMap := createAPI_assign template name ns configMapName replicas
      timestamp balInterceptors override javaInterceptors
    match w.yamlMarshal apiConfigMap with
    | some errMarshal => HandleErrorAndExit tr "Error marshal api configmap " (some errMarshal)
    | none =>
      match w.tempFile tr with
      | .error err => log_Fatal tr "Cannot create temporary file" err
      | .ok tmpFile =>
        let tr := tr ++ [.tempFile tmpFile]
        -- defer os.Remove(tmpFile.Name())
        let errWrite := w.write tr tmpFile
        let tr := tr ++ [.write tmpFile apiConfigMap errWrite]
        match errWrite with
        | some err => log_Fatal tr "Failed to write to temporary file" err
        | none =>
          let errClose := w.close tr tmpFile
          let tr := tr ++ [.close tmpFile errClose]
          match errClose with
          | some err => log_Fatal tr "" err
          | none =>
            let errAddApi := w.kubectlApply tr tmpFile ns
            let tr := tr ++ [.apply tmpFile apiConfigMap ns errAddApi]
            let tr :=
              match errAddApi with
              | some e => tr ++ [.println e]
              | none => tr
            -- the deferred os.Remove
            ⟨.ret (), tr ++ [.remove tmpFile]⟩

/-- Function `handleBalInterceptors`.  In the source the error handed to the reporter on a failed
create is the variable `err`, which is nil on that path. -/
def handleBalInterceptors (w : World) (tr : List Event)
    (configMapName path operation ns : String) : Res String :=
  let interceptorsPath := w.Join path (filepath_FromSlash "Interceptors")
  match w.osOpen interceptorsPath with
  | some err => HandleErrorAndExit tr "cannot open interceptors Dir" (some err)
  | none =>
    match w.readdir1 interceptorsPath with
    | none =>
      let err : Option Err := none
      let tr := tr ++ [.println "creating configmap with ballerina interceptors"]
      let (errConfInt, tr) :=
        createConfigMapWithNamespace w tr configMapName interceptorsPath ns operation
      match errConfInt with
      | some _ => HandleErrorAndExit tr "Error creating configmap for interceptors" err
      | none => ⟨.ret configMapName, tr⟩
    | some _ => ⟨.ret "", tr⟩

/-- The `for _, filePath := range interceptors` loop of `handleJavaInterceptors`;
`err` is the (nil) error of `os.Open`. -/
def handleJavaInterceptors_loop (w : World) (operation ns flagApiName : String)
    (err : Option Err) : List String → GoSlice → List Event → Res GoSlice
  | [], javaInterceptorsConfNames, tr => ⟨.ret javaInterceptorsConfNames, tr⟩
  | filePath :: rest, javaInterceptorsConfNames, tr =>
    if filepath_Ext filePath = ".jar" then
      let javaInterceptorsConfNames :=
        javaInterceptorsConfNames.append (flagApiName ++ "-" ++ filepath_Base filePath)
      let tr := tr ++ [.println ("creating configmap with java interceptor " ++ flagApiName
        ++ "-" ++ filepath_Base filePath)]
      let (errConfInt, tr) := createConfigMapWithNamespace w tr
        (flagApiName ++ "-" ++ filepath_Base filePath) filePath ns operation
      match errConfInt with
      | some _ =>
        HandleErrorAndExit tr ("Error creating configmap for java-interceptor" ++ flagApiName
          ++ "-" ++ filepath_Base filePath) err
      | none =>
        handleJavaInterceptors_loop w operation ns flagApiName err rest
          javaInterceptorsConfNames tr
    else
      handleJavaInterceptors_loop w operation ns flagApiName err rest
        javaInterceptorsConfNames tr

/-- Function `handleJavaInterceptors`.  The callback given to `filepath.Walk` always returns nil,
so `Walk` returns nil and every visited path is collected. -/
def handleJavaInterceptors (w : World) (tr : List Event)
    (path operation ns flagApiName : String) : Res GoSlice :=
  let interceptorsPath := w.Join path (filepath_FromSlash "libs")
  match w.osOpen interceptorsPath with
  | some err => HandleErrorAndExit tr "cannot open interceptors Dir" (some err)
  | none =>
    let err : Option Err := none
    let interceptors := w.walk interceptorsPath
    handleJavaInterceptors_loop w operation ns flagApiName err interceptors .nil tr

/-- Function `addApiCmd.Run`.  The package variables `balInterceptors` and `javaInterceptors`
hold their zero values unless the directory branch assigns them.  In the source the
error handed to the reporter on a failed swagger create is the variable `err` of
`os.Stat`, which is nil on that path. -/
def addApiCmd_Run (w : World) (f : Flags) : Res Unit :=
  let tr : List Event := []
  if w.KubernetesMode then
    if f.flagApiName = "" ∨ f.flagSwaggerFilePath = "" then
      HandleErrorAndExit tr
        "Required flags are missing. API name and swagger file paths are required"
        (some "required flags missing")
    else
      let configMapName := f.flagApiName ++ "-swagger"
      match w.stat f.flagSwaggerFilePath with
      | .error err => ⟨.ret (), tr ++ [.println err]⟩
      | .ok mode =>
        let err : Option Err := none
        match mode with
        | .dir =>
          let swaggerPath :=
            w.Join f.flagSwaggerFilePath (filepath_FromSlash "Meta-information/swagger.yaml")
          let tr := tr ++ [.println "creating configmap with swagger definition"]
          let (errConf, tr) :=
            createConfigMapWithNamespace w tr configMapName swaggerPath f.flagNamespace w.K8sCreate
          match errConf with
          | some _ => HandleErrorAndExit tr "Error creating configmap" err
          | none =>
            let balInterceptorsConfName := f.flagApiName ++ "-interceptors"
            (handleBalInterceptors w tr balInterceptorsConfName f.flagSwaggerFilePath "create"
              f.flagNamespace).bind fun balInterceptors tr =>
            (handleJavaInterceptors w tr f.flagSwaggerFilePath "create" f.flagNamespace
              f.flagApiName).bind fun javaInterceptors tr =>
            createAPI w tr f.flagApiName f.flagNamespace configMapName f.flagReplicas ""
              balInterceptors f.flagOverride javaInterceptors
        | .regular =>
          let tr := tr ++ [.println "creating configmap with swagger definition"]
          let (errConf, tr) := createConfigMapWithNamespace w tr configMapName
            f.flagSwaggerFilePath f.flagNamespace w.K8sCreate
          match errConf with
          | some _ => HandleErrorAndExit tr "Error creating configmap" err
          | none =>
            createAPI w tr f.flagApiName f.flagNamespace configMapName f.flagReplicas ""
              "" f.flagOverride .nil
        | .other =>
          createAPI w tr f.flagApiName f.flagNamespace configMapName f.flagReplicas ""
            "" f.flagOverride .nil
  else
    HandleErrorAndExit tr "set mode to kubernetes with command: apictl set --mode kubernetes"
      (some "mode should be set to kubernetes")

/-! ## JSON trees and the merge engine -/

mutual
/-- A JSON value (the merge tree). -/
inductive Json where
  | null
  | bool (b : Bool)
  | num (n : Int)
  | str (s : String)
  | arr (xs : JArr)
  | obj (kvs : JObj)
/-- The elements of a JSON array. -/
inductive JArr where
  | nil
  | cons (x : Json) (tl : JArr)
/-- The members of a JSON object, in order. -/
inductive JObj where
  | nil
  | cons (k : String) (v : Json) (tl : JObj)
end

/-- The value of the first member named `key`. -/
def JObj.lookup (key : String) : JObj → Option Json
  | .nil => none
  | .cons k v tl => if k = key then some v else tl.lookup key

/-- The object without its members named `key`. -/
def JObj.erase (key : String) : JObj → JObj
  | .nil => .nil
  | .cons k v tl => if k = key then tl.erase key else .cons k v (tl.erase key)

/-- The object without its members named by one of `keys`. -/
def JObj.eraseAll : List String → JObj → JObj
  | [], o => o
  | k :: ks, o => JObj.eraseAll ks (o.erase k)

mutual
/-- Modelled from the spec: the merge of `utils.MergeJSON` (package `utils`, not under src/),
section 4.2.  Two objects merge key by key; in every other pairing the overlay wins outright. -/
def Json.merge : Json → Json → Json
  | .obj a, .obj b => .obj (JObj.merge a b)
  | _, overlay => overlay
/-- Modelled from the spec: the object case of the merge: the union of both key sets; a key of
both sides is merged recursively, a key of one side keeps that side's value. -/
def JObj.merge : JObj → JObj → JObj
  | .nil, b => b
  | .cons k v tl, b =>
    match b.lookup k with
    | some w => .cons k (Json.merge v w) (JObj.merge tl (b.erase k))
    | none => .cons k v (JObj.merge tl b)
end

/-- Modelled from the spec: `utils.MergeJSON(firstJSON, secondJSON)` (not under src/); by
section 7 a type conflict is never an error. -/
def MergeJSON (firstJSON secondJSON : Json) : Except Err Json :=
  .ok (Json.merge firstJSON secondJSON)

/-! ## The API definition (`v2.APIDefinition`) -/

/-- Modelled from the spec: the `v2.APIDefinition` record (package `specs/v2`, not under
src/), section 3: name, context, version, lifecycle status, production and sandbox endpoint
URLs, an endpoint-config value (a nil pointer is `none`), and the remaining fields keyed by
their JSON name. -/
structure APIDefinition where
  Name : String
  Context : String
  Version : String
  Status : String
  ProductionUrl : String
  SandboxUrl : String
  EndpointConfig : Option Json
  additional : JObj

/-- The JSON names of the named fields of the definition. -/
def definitionKeys : List String :=
  ["name", "context", "version", "status", "productionUrl", "sandboxUrl", "endpointConfig"]

/-- A string member, left out when the string is empty. -/
def stringMember (key value : String) (tl : JObj) : JObj :=
  if value = "" then tl else .cons key (.str value) tl

/-- Modelled from the spec: `json.Marshal` of a definition (its field tags are not under
src/).  A field that is unset is left out of the tree, which is what makes a merged override
leave the fields it does not set unchanged (section 8, the `status: PUBLISHED` scenario).  The
remaining fields never carry the name of a named field. -/
def json_Marshal (d : APIDefinition) : Json :=
  .obj (stringMember "name" d.Name (stringMember "context" d.Context
    (stringMember "version" d.Version (stringMember "status" d.Status
      (stringMember "productionUrl" d.ProductionUrl (stringMember "sandboxUrl" d.SandboxUrl
        (match d.EndpointConfig with
          | some c => .cons "endpointConfig" c (JObj.eraseAll definitionKeys d.additional)
          | none => JObj.eraseAll definitionKeys d.additional)))))))

/-- A string field read from a tree: absent or null leaves the zero value, any other
non-string value is a type error. -/
def stringField (o : JObj) (key : String) : Except Err String :=
  match o.lookup key with
  | none => .ok ""
  | some .null => .ok ""
  | some (.str s) => .ok s
  | some _ => .error ("json: cannot unmarshal value into Go struct field " ++ key)

/-- Modelled from the spec: `json.Unmarshal` into a fresh definition (its field tags are not
under src/): the inverse reading of `json_Marshal`. -/
def json_Unmarshal : Json → Except Err APIDefinition
  | .obj o =>
    match stringField o "name" with
    | .error e => .error e
    | .ok name =>
    match stringField o "context" with
    | .error e => .error e
    | .ok context =>
    match stringField o "version" with
    | .error e => .error e
    | .ok version =>
    match stringField o "status" with
    | .error e => .error e
    | .ok status =>
    match stringField o "productionUrl" with
    | .error e => .error e
    | .ok productionUrl =>
    match stringField o "sandboxUrl" with
    | .error e => .error e
    | .ok sandboxUrl =>
      .ok { Name := name, Context := context, Version := version, Status := status,
            ProductionUrl := productionUrl, SandboxUrl := sandboxUrl,
            EndpointConfig :=
              match o.lookup "endpointConfig" with
              | some .null => none
              | r => r
            additional := JObj.eraseAll definitionKeys o }
  | .null =>
    .ok { Name := "", Context := "", Version := "", Status := "", ProductionUrl := "",
          SandboxUrl := "", EndpointConfig := none, additional := .nil }
  | _ => .error "json: cannot unmarshal value into Go value of type v2.APIDefinition"

/-! ## init.go -/

/-- The flag-backed package variables of the `init` command. -/
structure InitFlags where
  initCmdOutputDir : String
  initCmdSwaggerPath : String
  initCmdApiDefinitionPath : String
  initCmdInitialState : String

/-- What is written to a file: plain bytes, or a definition serialized by `yaml2.Marshal`. -/
inductive FileData where
  | bytes (s : String)
  | definition (d : APIDefinition)

/-- What the `init` command does, in order. -/
inductive InitEvent where
  /-- Go `fmt.Println`. -/
  | println (s : String)
  /-- Go `os.MkdirAll(path, os.ModePerm)`. -/
  | mkdirAll (path : String) (err : Option Err)
  /-- Go `ioutil.WriteFile(path, data, os.ModePerm)`. -/
  | writeFile (path : String) (data : FileData) (err : Option Err)
  /-- Call of `scaffoldParams(file)`. -/
  | scaffoldParams (file : String) (err : Option Err)

/-- Everything outside the `init` process, and the helpers that are not under src/. -/
structure InitWorld where
  /-- Go `filepath.Join(a, b)`. -/
  Join : String → String → String
  /-- Error of `os.MkdirAll(path, os.ModePerm)`. -/
  MkdirAll : String → Option Err
  /-- Go `filepath.Abs(path)`. -/
  Abs : String → Except Err String
  /-- Go `os.Getwd()`. -/
  Getwd : Except Err String
  /-- Constant `utils.DefaultAPISpecFilePath`. -/
  DefaultAPISpecFilePath : String
  /-- Constant `utils.ValidInitialStates`. -/
  ValidInitialStates : List String
  /-- Go `ioutil.ReadFile(path)`. -/
  ReadFile : String → Except Err String
  /-- Go `yaml.Unmarshal(data, &def)` into a definition. -/
  yaml_Unmarshal : String → Except Err APIDefinition
  /-- Go `loads.Spec(swaggerDoc)`, the document given by its raw form. -/
  loads_Spec : String → Except Err String
  /-- Function `v2.Swagger2Populate(def, doc)`: the definition it leaves in `def`, or its error. -/
  Swagger2Populate : APIDefinition → String → Except Err APIDefinition
  /-- Function `utils.JsonToYaml(doc.Raw())`. -/
  JsonToYaml : String → Except Err String
  /-- Error of `ioutil.WriteFile(path, data, os.ModePerm)`. -/
  WriteFile : String → Option Err
  /-- The embedded `/init/swagger-default.yaml`. -/
  swaggerDefault : String
  /-- Function `utils.EnvSubstitute(content)`. -/
  EnvSubstitute : String → Except Err String
  /-- Go `yaml2.Unmarshal(content, &apiDef)` into a definition. -/
  yaml2_Unmarshal : String → Except Err APIDefinition
  /-- Error of `yaml2.Marshal(def)`. -/
  yaml2_Marshal : APIDefinition → Option Err
  /-- Constant `DefaultAPIMParamsFileName`. -/
  DefaultAPIMParamsFileName : String
  /-- Error of `scaffoldParams(file)`. -/
  scaffoldParams : String → Option Err
  /-- The embedded `/init/README.md`. -/
  readme : String

/-- Result of `executeInitCmd`: the returned error (nil is `none`) and the trace. -/
structure InitRes where
  err : Option Err
  trace : List InitEvent

/-- The directories to be created (`dirs`). -/
def dirs : List String :=
  ["Meta-information", "Image", "Docs", "Docs/FileContents", "Sequences",
    "Sequences/fault-sequence", "Sequences/in-sequence", "Sequences/out-sequence",
    "Interceptors", "libs"]

/-- The loop of `createDirectories` over the remaining directories. -/
def createDirectories_loop (w : InitWorld) (name : String) :
    List String → List InitEvent → Option Err × List InitEvent
  | [], tr => (none, tr)
  | dir :: rest, tr =>
    let dirPath := w.Join name (filepath_FromSlash dir)
    match w.MkdirAll dirPath with
    | some err => (some err, tr ++ [.mkdirAll dirPath (some err)])
    | none => createDirectories_loop w name rest (tr ++ [.mkdirAll dirPath none])

/-- Function `createDirectories`. -/
def createDirectories (w : InitWorld) (name : String) (tr : List InitEvent) :
    Option Err × List InitEvent :=
  createDirectories_loop w name dirs tr

/-- Function `loadDefaultSpecFromDisk`. -/
def loadDefaultSpecFromDisk (w : InitWorld) : Except Err APIDefinition :=
  match w.ReadFile w.DefaultAPISpecFilePath with
  | .error err => .error err
  | .ok defaultData =>
    match w.yaml_Unmarshal defaultData with
    | .error err => .error err
    | .ok defn => .ok defn

/-- Lines 178-217 of `executeInitCmd`: OpenAPI ingestion, or the default swagger.  Returns the
definition as this block leaves it. -/
def executeInitCmd_swagger (w : InitWorld) (f : InitFlags) (swaggerSavePath : String)
    (defn : APIDefinition) (tr : List InitEvent) : Except Err APIDefinition × List InitEvent :=
  if f.initCmdSwaggerPath ≠ "" then
    match w.loads_Spec f.initCmdSwaggerPath with
    | .error err => (.error err, tr)
    | .ok doc =>
      match w.Swagger2Populate defn doc with
      | .error err => (.error err, tr)
      | .ok defn =>
        let defn :=
          if defn.EndpointConfig.isSome then { defn with ProductionUrl := "", SandboxUrl := "" }
          else defn
        match w.JsonToYaml doc with
        | .error err => (.error err, tr)
        | .ok yamlSwagger =>
          let err := w.WriteFile swaggerSavePath
          let tr := tr ++ [.writeFile swaggerSavePath (.bytes yamlSwagger) err]
          match err with
          | some err => (.error err, tr)
          | none => (.ok defn, tr)
  else
    let err := w.WriteFile swaggerSavePath
    let tr := tr ++ [.writeFile swaggerSavePath (.bytes w.swaggerDefault) err]
    match err with
    | some err => (.error err, tr)
    | none => (.ok defn, tr)

/-- Lines 219-266 of `executeInitCmd`: override ingestion.  Returns the definition as this
block leaves it.  The two `json.Marshal` calls are on plain records and do not fail. -/
def executeInitCmd_definition (w : InitWorld) (f : InitFlags) (defn : APIDefinition) :
    Except Err APIDefinition :=
  if f.initCmdApiDefinitionPath ≠ "" then
    match w.ReadFile f.initCmdApiDefinitionPath with
    | .error err => .error err
    | .ok content =>
      match w.EnvSubstitute content with
      | .error err => .error err
      | .ok data =>
        match w.yaml2_Unmarshal data with
        | .error err => .error err
        | .ok apiDef =>
          let originalDefBytes := json_Marshal defn
          let newDefBytes := json_Marshal apiDef
          match MergeJSON originalDefBytes newDefBytes with
          | .error err => .error err
          | .ok finalDefBytes =>
            match json_Unmarshal finalDefBytes with
            | .error err => .error err
            | .ok tmpDef => .ok tmpDef
  else .ok defn

/-- Lines 268-298 of `executeInitCmd`: the definition is serialized and written, then the
parameters file and the README. -/
def executeInitCmd_write (w : InitWorld) (f : InitFlags) (defn : APIDefinition)
    (tr : List InitEvent) : InitRes :=
  match w.yaml2_Marshal defn with
  | some err => ⟨some err, tr⟩
  | none =>
    let apiJSONPath := w.Join f.initCmdOutputDir (filepath_FromSlash "Meta-information/api.yaml")
    let err := w.WriteFile apiJSONPath
    let tr := tr ++ [.writeFile apiJSONPath (.definition defn) err]
    match err with
    | some err => ⟨some err, tr⟩
    | none =>
      let apimProjParamsFilePath := w.Join f.initCmdOutputDir w.DefaultAPIMParamsFileName
      let err := w.scaffoldParams apimProjParamsFilePath
      let tr := tr ++ [.scaffoldParams apimProjParamsFilePath err]
      match err with
      | some err => ⟨some err, tr⟩
      | none =>
        let apimProjReadmeFilePath := w.Join f.initCmdOutputDir "README.md"
        let err := w.WriteFile apimProjReadmeFilePath
        let tr := tr ++ [.writeFile apimProjReadmeFilePath (.bytes w.readme) err]
        match err with
        | some err => ⟨some err, tr⟩
        | none =>
          ⟨none, tr ++ [.println "Project initialized",
            .println "Open README file to learn more"]⟩

/-- Lines 144-160 of `executeInitCmd`: the directory the project is initialized in. -/
def executeInitCmd_dir (w : InitWorld) (f : InitFlags) (tr : List InitEvent) :
    Except Err String × List InitEvent :=
  if f.initCmdOutputDir ≠ "" then
    let err := w.MkdirAll f.initCmdOutputDir
    let tr := tr ++ [.mkdirAll f.initCmdOutputDir err]
    match err with
    | some err => (.error err, tr)
    | none =>
      match w.Abs f.initCmdOutputDir with
      | .error err => (.error err, tr)
      | .ok p => (.ok p, tr)
  else
    match w.Getwd with
    | .error err => (.error err, tr)
    | .ok pwd => (.ok pwd, tr)

/-- Lines 163-298 of `executeInitCmd`: load the default definition, set the requested initial
state, create the directories, ingest the OpenAPI document, ingest the override document,
write. -/
def executeInitCmd_resolve (w : InitWorld) (f : InitFlags) (swaggerSavePath : String)
    (tr : List InitEvent) : InitRes :=
  match loadDefaultSpecFromDisk w with
  | .error err => ⟨some err, tr⟩
  | .ok defn =>
    -- initCmdInitialState has already validated before creating the 'dir'
    let defn :=
      if f.initCmdInitialState ≠ "" then { defn with Status := f.initCmdInitialState }
      else defn
    match createDirectories w f.initCmdOutputDir tr with
    | (some err, tr) => ⟨some err, tr⟩
    | (none, tr) =>
      match executeInitCmd_swagger w f swaggerSavePath defn tr with
      | (.error err, tr) => ⟨some err, tr⟩
      | (.ok defn, tr) =>
        match executeInitCmd_definition w f defn with
        | .error err => ⟨some err, tr⟩
        | .ok defn => executeInitCmd_write w f defn tr

/-- Function `executeInitCmd`. -/
def executeInitCmd (w : InitWorld) (f : InitFlags) : InitRes :=
  let swaggerSavePath :=
    w.Join f.initCmdOutputDir (filepath_FromSlash "Meta-information/swagger.yaml")
  match executeInitCmd_dir w f [] with
  | (.error err, tr) => ⟨some err, tr⟩
  | (.ok dir, tr) =>
    executeInitCmd_resolve w f swaggerSavePath
      (tr ++ [.println ("Initializing a new WSO2 API Manager project in " ++ dir)])

/-- The definitions written to disk in a trace, in order. -/
def definitionsWritten : List InitEvent → List APIDefinition
  | [] => []
  | .writeFile _ (.definition d) _ :: tr => d :: definitionsWritten tr
  | _ :: tr => definitionsWritten tr

/-! ## Reading traces -/

/-- A `kubectl apply` event. -/
def Event.isApply : Event → Bool
  | .apply _ _ _ _ => true
  | _ => false

/-- The manifest an event carries: the content written to or applied from the temporary file. -/
def Event.manifest : Event → Option API
  | .write _ content _ => some content
  | .apply _ content _ _ => some content
  | _ => none

/-- A `kubectl ... configmap` event whose command failed. -/
def Event.isFailedConfigmap : Event → Bool
  | .configmap _ _ _ _ (some _) => true
  | _ => false

/-- The `kubectl ... configmap` calls of a trace, in order:
(operation, name, source file, namespace, error). -/
def configmapCalls : List Event → List (String × String × String × String × Option Err)
  | [] => []
  | .configmap operation configMapName filePath ns err :: tr =>
    (operation, configMapName, filePath, ns, err) :: configmapCalls tr
  | _ :: tr => configmapCalls tr

/-- The events a run added to the trace `tr` it started from. -/
def Res.added {α : Type} (r : Res α) (tr : List Event) : List Event := r.trace.drop tr.length

/-- The paths of an enumeration whose extension is `.jar`. -/
def jarPaths (paths : List String) : List String :=
  paths.filter (fun p => filepath_Ext p = ".jar")

/-- The configuration-object name of a library file. -/
def libraryName (flagApiName p : String) : String := flagApiName ++ "-" ++ filepath_Base p

/-! ## Example worlds -/

/-- An example template. -/
def exTemplate : API :=
  { Name := "", Namespace := "",
    Spec :=
      { Definition :=
          { SwaggerConfigmapName := "", Interceptors := { Ballerina := "", Java := .nil },
            rest := [("type", "swagger")] },
        Replicas := 1, Override := false, UpdateTimeStamp := "", rest := [("mode", "privateJet")] },
    rest := [("apiVersion", "wso2.com/v1alpha1"), ("kind", "API")] }

/-- An example world: the project directory `proj` holds a swagger file, an empty
`Interceptors` folder and two jars among other files under `libs`; every command succeeds. -/
def exWorld : World :=
  { KubernetesMode := true
    K8sCreate := "create"
    stat := fun p =>
      if p = "proj" then .ok .dir
      else if p = "swagger.yaml" then .ok .regular
      else if p = "/dev/null" then .ok .other
      else .error "no such file or directory"
    Join := fun a b => a ++ "/" ++ b
    osOpen := fun _ => none
    readdir1 := fun _ => some "EOF"
    walk := fun _ => ["proj/libs", "proj/libs/a.jar", "proj/libs/notes.txt", "proj/libs/b.jar"]
    kubectlConfigmap := fun _ _ _ _ _ => none
    template := .ok exTemplate
    yamlMarshal := fun _ => none
    tempFile := fun _ => .ok "/tmp/apicr-1.yaml"
    write := fun _ _ => none
    close := fun _ _ => none
    kubectlApply := fun _ _ _ => none }

/-- As `exWorld`, but the create of `petstore-swagger` fails. -/
def exWorldSwaggerFails : World :=
  { exWorld with
    kubectlConfigmap := fun _ _ configMapName _ _ =>
      if configMapName = "petstore-swagger" then some "exit status 1" else none }

/-- As `exWorld`, but the project has no `Interceptors` directory. -/
def exWorldNoInterceptorsDir : World :=
  { exWorld with
    osOpen := fun p =>
      if p = "proj/Interceptors" then some "open proj/Interceptors: no such file or directory"
      else none }

/-- As `exWorld`, but writing the temporary file fails. -/
def exWorldWriteFails : World :=
  { exWorld with write := fun _ _ => some "no space left on device" }

/-- As `exWorld`, but `kubectl apply` fails. -/
def exWorldApplyFails : World :=
  { exWorld with kubectlApply := fun _ _ _ => some "exit status 1" }

/-- As `exWorld`, but the `Interceptors` folder holds a file and the create of
`petstore-interceptors` fails. -/
def exWorldInterceptorsCreateFails : World :=
  { exWorld with
    readdir1 := fun _ => none
    kubectlConfigmap := fun _ _ configMapName _ _ =>
      if configMapName = "petstore-interceptors" then some "exit status 1" else none }

/-- As `exWorld`, but the create of `petstore-b.jar` fails. -/
def exWorldLibraryCreateFails : World :=
  { exWorld with
    kubectlConfigmap := fun _ _ configMapName _ _ =>
      if configMapName = "petstore-b.jar" then some "exit status 1" else none }

/-- The causes handed to `utils.HandleErrorAndExit` in a trace, in order. -/
def reportedCauses : List Event → List (Option Err)
  | [] => []
  | .handleErrorAndExit _ err :: tr => err :: reportedCauses tr
  | _ :: tr => reportedCauses tr

/-- Example flags: directory form. -/
def exFlags : Flags :=
  { flagApiName := "petstore", flagSwaggerFilePath := "proj", flagReplicas := 3,
    flagNamespace := "wso2", flagOverride := false }

/-- Example flags: single-file form. -/
def exFlagsFile : Flags :=
  { flagApiName := "petstore", flagSwaggerFilePath := "swagger.yaml", flagReplicas := 3,
    flagNamespace := "wso2", flagOverride := false }

/-- Example flags: the swagger path is a character device. -/
def exFlagsDevice : Flags :=
  { flagApiName := "petstore", flagSwaggerFilePath := "/dev/null", flagReplicas := 3,
    flagNamespace := "wso2", flagOverride := false }

/-- An example baseline definition. -/
def exBaseline : APIDefinition :=
  { Name := "", Context := "", Version := "", Status := "CREATED", ProductionUrl := "",
    SandboxUrl := "", EndpointConfig := none, additional := .nil }

/-- An example override document, parsed: it sets a status and a production URL. -/
def exOverride : APIDefinition :=
  { Name := "", Context := "", Version := "", Status := "CREATED",
    ProductionUrl := "https://prod.example.com", SandboxUrl := "", EndpointConfig := none,
    additional := .nil }

/-- An example world for `init`: every file operation succeeds, the OpenAPI document yields a
name, a context, a version, both URLs and an endpoint-config object, and `definition.yaml` is
the override document `exOverride`. -/
def exInitWorld : InitWorld :=
  { Join := fun a b => a ++ "/" ++ b
    MkdirAll := fun _ => none
    Abs := fun p => .ok ("/home/user/" ++ p)
    Getwd := .ok "/home/user"
    DefaultAPISpecFilePath := "/home/user/.wso2apictl/default_api.yaml"
    ValidInitialStates := ["CREATED", "PUBLISHED"]
    ReadFile := fun p =>
      if p = "/home/user/.wso2apictl/default_api.yaml" then .ok "status: CREATED"
      else if p = "definition.yaml" then
        .ok "status: CREATED; productionUrl: https://prod.example.com"
      else .error "no such file or directory"
    yaml_Unmarshal := fun _ => .ok exBaseline
    loads_Spec := fun _ => .ok "swagger: 2.0"
    Swagger2Populate := fun d _ =>
      .ok { d with
        Name := "Petstore", Context := "/v1", Version := "1.0.0",
        ProductionUrl := "https://api.example.com/v1",
        SandboxUrl := "https://api.example.com/v1",
        EndpointConfig := some (.obj (.cons "endpoint_type" (.str "load_balance") .nil)) }
    JsonToYaml := fun raw => .ok raw
    WriteFile := fun _ => none
    swaggerDefault := "swagger: 2.0"
    EnvSubstitute := fun content => .ok content
    yaml2_Unmarshal := fun _ => .ok exOverride
    yaml2_Marshal := fun _ => none
    DefaultAPIMParamsFileName := "api_params.yaml"
    scaffoldParams := fun _ => none
    readme := "README" }

/-- Example flags for `init`: an OpenAPI document, no override document, no initial state. -/
def exInitFlags : InitFlags :=
  { initCmdOutputDir := "petstore", initCmdSwaggerPath := "petstore.yaml",
    initCmdApiDefinitionPath := "", initCmdInitialState := "" }

/-- Example flags for `init`: an OpenAPI document and an override document. -/
def exInitFlagsOverride : InitFlags :=
  { initCmdOutputDir := "petstore", initCmdSwaggerPath := "petstore.yaml",
    initCmdApiDefinitionPath := "definition.yaml", initCmdInitialState := "" }

/-- Example flags for `init`: the initial state `PUBLISHED` and an override document. -/
def exInitFlagsState : InitFlags :=
  { initCmdOutputDir := "petstore", initCmdSwaggerPath := "",
    initCmdApiDefinitionPath := "definition.yaml", initCmdInitialState := "PUBLISHED" }

/-- Example flags for `init`: the initial state `PUBLISHED`, an OpenAPI document, no override
document. -/
def exInitFlagsStateOnly : InitFlags :=
  { initCmdOutputDir := "petstore", initCmdSwaggerPath := "petstore.yaml",
    initCmdApiDefinitionPath := "", initCmdInitialState := "PUBLISHED" }

/-! # Theorems -/

/-! ## Path names -/

/-- The result of the extension loop is empty or ends with the suffix already passed. -/
theorem extAux_suffix (r : List Char) : ∀ acc : List Char,
    extAux r acc = [] ∨ ∃ pre, extAux r acc = pre ++ acc := by
  induction r with
  | nil => intro acc; exact Or.inl rfl
  | cons c rest ih =>
    intro acc
    by_cases h1 : c = '/'
    · left; simp [extAux, h1]
    · by_cases h2 : c = '.'
      · right; exact ⟨[c], by simp [extAux, h2]⟩
      · rcases ih (c :: acc) with h | ⟨pre, h⟩
        · left; simp [extAux, h1, h2, h]
        · right; exact ⟨pre ++ [c], by simp [extAux, h1, h2, h]⟩

/-- A path whose extension is `.jar` ends in `r`. -/
theorem ext_jar_reverse (p : String) (h : filepath_Ext p = ".jar") :
    ∃ q, p.data.reverse = 'r' :: q := by
  unfold filepath_Ext at h
  have h' : extAux p.data.reverse [] = ['.', 'j', 'a', 'r'] := by
    have := congrArg String.data h
    simpa using this
  cases hr : p.data.reverse with
  | nil => rw [hr] at h'; simp [extAux] at h'
  | cons c rest =>
    rw [hr] at h'
    by_cases h1 : c = '/'
    · simp [extAux, h1] at h'
    · by_cases h2 : c = '.'
      · simp [extAux, h2] at h'
      · simp only [extAux, h1, h2, if_false] at h'
        rcases extAux_suffix rest [c] with h3 | ⟨pre, h3⟩
        · rw [h3] at h'; simp at h'
        · rw [h3] at h'
          have h4 := congrArg List.getLast? h'
          simp at h4
          exact ⟨rest, by rw [h4]⟩

theorem base_ne_interceptors (p : String) (h : filepath_Ext p = ".jar") :
    filepath_Base p ≠ "interceptors" := by
  obtain ⟨q, hq⟩ := ext_jar_reverse p h
  have hne : p.data ≠ [] := by
    intro h0
    rw [h0] at hq
    simp at hq
  intro hb
  have hb' := congrArg String.data hb
  simp [filepath_Base, hne, hq, List.dropWhile, List.takeWhile] at hb'
  have := congrArg List.getLast? hb'
  simp at this

theorem string_append_left_cancel (a b c : String) (h : a ++ b = a ++ c) : b = c := by
  have := congrArg String.data h
  simp only [String.data_append] at this
  exact String.ext (List.append_cancel_left this)

theorem libraryName_ne_interceptors (api p : String) (h : filepath_Ext p = ".jar") :
    libraryName api p ≠ api ++ "-interceptors" := by
  intro h1
  unfold libraryName at h1
  rw [String.append_assoc] at h1
  have h2 := string_append_left_cancel _ _ _ h1
  have h3 : ("-interceptors" : String) = "-" ++ "interceptors" := by decide
  rw [h3] at h2
  exact base_ne_interceptors p h (string_append_left_cancel _ _ _ h2)

theorem swagger_ne_interceptors (api : String) : api ++ "-swagger" ≠ api ++ "-interceptors" := by
  intro h
  have := string_append_left_cancel _ _ _ h
  revert this
  decide
/-! ## Traces -/

theorem configmapCalls_append (a b : List Event) :
    configmapCalls (a ++ b) = configmapCalls a ++ configmapCalls b := by
  induction a with
  | nil => rfl
  | cons e a ih => cases e <;> simp [configmapCalls, ih]

theorem added_of_trace {α : Type} (r : Res α) (tr l : List Event) (h : r.trace = tr ++ l) :
    r.added tr = l := by
  simp [Res.added, h]

theorem mem_configmapCalls (tr : List Event) (c : String × String × String × String × Option Err) :
    c ∈ configmapCalls tr ↔ Event.configmap c.1 c.2.1 c.2.2.1 c.2.2.2.1 c.2.2.2.2 ∈ tr := by
  induction tr with
  | nil => simp [configmapCalls]
  | cons e tr ih =>
    obtain ⟨a, b, c3, d, e5⟩ := c
    cases e <;> simp_all [configmapCalls]

/-! ## The library loop -/

/-- A path with another extension is skipped by the loop. -/
theorem loop_skip (w : World) (operation ns flagApiName : String) (err : Option Err)
    (p : String) (rest : List String) (acc : GoSlice) (tr : List Event)
    (hp : ¬ filepath_Ext p = ".jar") :
    handleJavaInterceptors_loop w operation ns flagApiName err (p :: rest) acc tr =
      handleJavaInterceptors_loop w operation ns flagApiName err rest acc tr := by
  simp [handleJavaInterceptors_loop, hp]

/-- A `.jar` path whose create succeeds: the name is appended and the loop goes on. -/
theorem loop_created (w : World) (operation ns flagApiName : String) (err : Option Err)
    (p : String) (rest : List String) (acc : GoSlice) (tr : List Event)
    (hp : filepath_Ext p = ".jar")
    (hk : w.kubectlConfigmap
      (tr ++ [.println ("creating configmap with java interceptor " ++ libraryName flagApiName p)])
      operation (libraryName flagApiName p) p ns = none) :
    handleJavaInterceptors_loop w operation ns flagApiName err (p :: rest) acc tr =
      handleJavaInterceptors_loop w operation ns flagApiName err rest
        (acc.append (libraryName flagApiName p))
        (tr ++ [.println ("creating configmap with java interceptor " ++ libraryName flagApiName p),
          .configmap operation (libraryName flagApiName p) p ns none]) := by
  simp only [libraryName, String.append_assoc] at hk ⊢
  simp [handleJavaInterceptors_loop, hp, createConfigMapWithNamespace, hk, String.append_assoc]

/-- A `.jar` path whose create fails: the loop reports and the process exits. -/
theorem loop_failed (w : World) (operation ns flagApiName : String) (err : Option Err)
    (p : String) (rest : List String) (acc : GoSlice) (tr : List Event) (e : Err)
    (hp : filepath_Ext p = ".jar")
    (hk : w.kubectlConfigmap
      (tr ++ [.println ("creating configmap with java interceptor " ++ libraryName flagApiName p)])
      operation (libraryName flagApiName p) p ns = some e) :
    handleJavaInterceptors_loop w operation ns flagApiName err (p :: rest) acc tr =
      ⟨.exit 1,
        tr ++ [.println ("creating configmap with java interceptor " ++ libraryName flagApiName p),
          .configmap operation (libraryName flagApiName p) p ns (some e),
          .handleErrorAndExit
            ("Error creating configmap for java-interceptor" ++ libraryName flagApiName p) err]⟩ := by
  simp only [libraryName, String.append_assoc] at hk ⊢
  simp [handleJavaInterceptors_loop, hp, createConfigMapWithNamespace, hk, String.append_assoc,
    HandleErrorAndExit]

/-- What the library loop does, from any accumulated names and any history: it only adds
events after the history, none of them an apply, and every create it issues is for the library
name of a `.jar` path; when it returns, every create succeeded, the names are the accumulated
ones followed by one per `.jar` path in order, and the creates are exactly one per `.jar`
path; when it exits, a create failed and the status is 1. -/
theorem handleJavaInterceptors_loop_spec (w : World) (operation ns flagApiName : String)
    (err : Option Err) (paths : List String) :
    ∀ (acc : GoSlice) (tr : List Event),
    ∃ l, (handleJavaInterceptors_loop w operation ns flagApiName err paths acc tr).trace = tr ++ l ∧
      (∀ e ∈ l, e.manifest = none) ∧
      (∀ x ∈ configmapCalls l,
        ∃ p ∈ paths, filepath_Ext p = ".jar" ∧ x.2.1 = libraryName flagApiName p) ∧
      (∀ s, (handleJavaInterceptors_loop w operation ns flagApiName err paths acc tr).out = .ret s →
        s.toList = acc.toList ++ (jarPaths paths).map (libraryName flagApiName) ∧
        configmapCalls l = (jarPaths paths).map
          (fun p => (operation, libraryName flagApiName p, p, ns, none))) ∧
      (∀ c, (handleJavaInterceptors_loop w operation ns flagApiName err paths acc tr).out = .exit c →
        c = 1 ∧ ∃ x ∈ configmapCalls l, x.2.2.2.2 ≠ none) := by
  induction paths with
  | nil =>
    intro acc tr
    exact ⟨[], by simp [handleJavaInterceptors_loop, jarPaths, configmapCalls]⟩
  | cons p rest ih =>
    intro acc tr
    by_cases hp : filepath_Ext p = ".jar"
    · cases hk : w.kubectlConfigmap
          (tr ++ [.println ("creating configmap with java interceptor " ++ libraryName flagApiName p)])
          operation (libraryName flagApiName p) p ns with
      | some e =>
        rw [loop_failed w operation ns flagApiName err p rest acc tr e hp hk]
        exact ⟨_, rfl, by simp [Event.manifest], by simp [configmapCalls, hp], by simp,
          by simp [configmapCalls]⟩
      | none =>
        rw [loop_created w operation ns flagApiName err p rest acc tr hp hk]
        obtain ⟨l, hl, hap, hnm, hret, hexit⟩ := ih (acc.append (libraryName flagApiName p))
          (tr ++ [.println ("creating configmap with java interceptor " ++ libraryName flagApiName p),
            .configmap operation (libraryName flagApiName p) p ns none])
        refine ⟨[.println ("creating configmap with java interceptor " ++ libraryName flagApiName p),
          .configmap operation (libraryName flagApiName p) p ns none] ++ l, ?_, ?_, ?_, ?_, ?_⟩
        · simp [hl]
        · intro e he
          simp only [List.mem_append, List.mem_cons, List.mem_singleton, List.not_mem_nil,
            or_false] at he
          rcases he with (rfl | rfl) | he
          · rfl
          · rfl
          · exact hap e he
        · intro x hx
          simp only [List.cons_append, List.nil_append, configmapCalls, List.mem_cons] at hx
          rcases hx with rfl | hx
          · exact ⟨p, by simp, hp, rfl⟩
          · obtain ⟨q, hq, hq1, hq2⟩ := hnm x hx
            exact ⟨q, by simp [hq], hq1, hq2⟩
        · intro s hs
          obtain ⟨h1, h2⟩ := hret s hs
          refine ⟨?_, ?_⟩
          · rw [h1]
            simp [jarPaths, hp, GoSlice.append, GoSlice.toList]
          · simp [configmapCalls, h2, jarPaths, hp]
        · intro c hc
          obtain ⟨h1, x, hx, hx2⟩ := hexit c hc
          exact ⟨h1, x, by simp [configmapCalls, hx], hx2⟩
    · rw [loop_skip w operation ns flagApiName err p rest acc tr hp]
      obtain ⟨l, hl, hap, hnm, hret, hexit⟩ := ih acc tr
      refine ⟨l, hl, hap, ?_, ?_, hexit⟩
      · intro x hx
        obtain ⟨q, hq, hq1, hq2⟩ := hnm x hx
        exact ⟨q, by simp [hq], hq1, hq2⟩
      · intro s hs
        obtain ⟨h1, h2⟩ := hret s hs
        simp [h1, h2, jarPaths, hp]

/-- What `handleJavaInterceptors` does from any history: as the loop over the walked paths,
started with no names, unless the `libs` directory cannot be opened. -/
theorem handleJavaInterceptors_spec (w : World) (tr : List Event)
    (path operation ns flagApiName : String) :
    ∃ l, (handleJavaInterceptors w tr path operation ns flagApiName).trace = tr ++ l ∧
      (∀ e ∈ l, e.manifest = none) ∧
      (∀ x ∈ configmapCalls l, ∃ p, filepath_Ext p = ".jar" ∧ x.2.1 = libraryName flagApiName p) ∧
      (∀ s, (handleJavaInterceptors w tr path operation ns flagApiName).out = .ret s →
        s.toList = (jarPaths (w.walk (w.Join path (filepath_FromSlash "libs")))).map
          (libraryName flagApiName) ∧
        configmapCalls l = (jarPaths (w.walk (w.Join path (filepath_FromSlash "libs")))).map
          (fun p => (operation, libraryName flagApiName p, p, ns, none))) ∧
      (∀ c, (handleJavaInterceptors w tr path operation ns flagApiName).out = .exit c →
        c = 1 ∧ (w.osOpen (w.Join path (filepath_FromSlash "libs")) ≠ none ∨
          ∃ x ∈ configmapCalls l, x.2.2.2.2 ≠ none)) := by
  cases ho : w.osOpen (w.Join path (filepath_FromSlash "libs")) with
  | some e =>
    simp only [handleJavaInterceptors, ho, HandleErrorAndExit]
    exact ⟨_, rfl, by simp [Event.manifest], by simp [configmapCalls], by simp [HandleErrorAndExit],
      by simp [HandleErrorAndExit]⟩
  | none =>
    obtain ⟨l, hl, hap, hnm, hret, hexit⟩ := handleJavaInterceptors_loop_spec w operation ns
      flagApiName none (w.walk (w.Join path (filepath_FromSlash "libs"))) .nil tr
    simp only [handleJavaInterceptors, ho]
    refine ⟨l, hl, hap, ?_, ?_, ?_⟩
    · intro x hx
      obtain ⟨q, _, hq1, hq2⟩ := hnm x hx
      exact ⟨q, hq1, hq2⟩
    · intro s hs
      simpa [GoSlice.toList] using hret s hs
    · intro c hc
      obtain ⟨h1, h2⟩ := hexit c hc
      exact ⟨h1, Or.inr h2⟩

/-- What `handleBalInterceptors` does from any history: it adds no apply, its only possible
create is for `configMapName`, it returns either the empty name or `configMapName` after a
successful create of it, and it exits with status 1 otherwise. -/
theorem handleBalInterceptors_spec (w : World) (tr : List Event)
    (configMapName path operation ns : String) :
    ∃ l, (handleBalInterceptors w tr configMapName path operation ns).trace = tr ++ l ∧
      (∀ e ∈ l, e.manifest = none) ∧
      (∀ x ∈ configmapCalls l, x.2.1 = configMapName ∧
        w.readdir1 (w.Join path (filepath_FromSlash "Interceptors")) = none) ∧
      (∀ s, (handleBalInterceptors w tr configMapName path operation ns).out = .ret s →
        (∀ x ∈ configmapCalls l, x.2.2.2.2 = none) ∧
        (s = "" ∧ l = [] ∨
          s = configMapName ∧
            w.readdir1 (w.Join path (filepath_FromSlash "Interceptors")) = none ∧
            ∃ file ns1 op, (op, configMapName, file, ns1, none) ∈ configmapCalls l)) ∧
      (∀ c, (handleBalInterceptors w tr configMapName path operation ns).out = .exit c →
        c = 1 ∧ (w.osOpen (w.Join path (filepath_FromSlash "Interceptors")) ≠ none ∨
          ∃ x ∈ configmapCalls l, x.2.2.2.2 ≠ none)) := by
  cases ho : w.osOpen (w.Join path (filepath_FromSlash "Interceptors")) with
  | some e =>
    simp only [handleBalInterceptors, ho, HandleErrorAndExit]
    exact ⟨_, rfl, by simp [Event.manifest], by simp [configmapCalls], by simp [HandleErrorAndExit],
      by simp [HandleErrorAndExit]⟩
  | none =>
    cases hr : w.readdir1 (w.Join path (filepath_FromSlash "Interceptors")) with
    | some e =>
      simp only [handleBalInterceptors, ho, hr]
      exact ⟨[], by simp, by simp, by simp [configmapCalls], by simp [configmapCalls], by simp⟩
    | none =>
      cases hk : w.kubectlConfigmap
          (tr ++ [.println "creating configmap with ballerina interceptors"]) operation
          configMapName (w.Join path (filepath_FromSlash "Interceptors")) ns with
      | some e =>
        simp only [handleBalInterceptors, ho, hr, createConfigMapWithNamespace, hk,
          HandleErrorAndExit, List.append_assoc]
        exact ⟨_, rfl, by simp [Event.manifest], by simp [configmapCalls, hr], by simp,
          by simp [configmapCalls]⟩
      | none =>
        simp only [handleBalInterceptors, ho, hr, createConfigMapWithNamespace, hk,
          List.append_assoc]
        exact ⟨_, rfl, by simp [Event.manifest], by simp [configmapCalls, hr],
          by simp [configmapCalls, hr], by simp⟩

/-! ## `createAPI` -/

theorem createAPI_assign_Java (t : API) (name ns configMapName : String) (replicas : Int)
    (timestamp balInterceptors : String) (override : Bool) (javaInterceptors : GoSlice) :
    (createAPI_assign t name ns configMapName replicas timestamp balInterceptors override
      javaInterceptors).Spec.Definition.Interceptors.Java = .mk javaInterceptors.toList := by
  cases javaInterceptors with
  | nil => simp [createAPI_assign, GoSlice.len, GoSlice.toList]
  | mk xs =>
    cases xs with
    | nil => simp [createAPI_assign, GoSlice.len, GoSlice.toList]
    | cons x xs => simp [createAPI_assign, GoSlice.len, GoSlice.toList]

/-- What `createAPI` adds to the trace: no `kubectl ... configmap` call, and every manifest it
writes or applies is the filled template. -/
theorem createAPI_spec (w : World) (tr : List Event) (name ns configMapName : String)
    (replicas : Int) (timestamp balInterceptors : String) (override : Bool)
    (javaInterceptors : GoSlice) :
    ∃ l, (createAPI w tr name ns configMapName replicas timestamp balInterceptors override
        javaInterceptors).trace = tr ++ l ∧
      configmapCalls l = [] ∧
      (∀ e ∈ l, ∀ m, e.manifest = some m →
        ∃ t, w.template = .ok t ∧ m = createAPI_assign t name ns configMapName replicas timestamp
          balInterceptors override javaInterceptors) := by
  unfold createAPI
  split
  · exact ⟨_, rfl, by simp [configmapCalls], by simp [Event.manifest]⟩
  · rename_i t ht
    have key : ∀ m : API, createAPI_assign t name ns configMapName replicas timestamp
        balInterceptors override javaInterceptors = m →
        ∃ t, w.template = .ok t ∧ m = createAPI_assign t name ns configMapName replicas
          timestamp balInterceptors override javaInterceptors := fun m hm => ⟨t, ht, hm.symm⟩
    simp only []
    split
    · exact ⟨_, rfl, by simp [configmapCalls], by simp [Event.manifest]⟩
    · split
      · exact ⟨_, rfl, by simp [configmapCalls], by simp [log_Fatal, Event.manifest]⟩
      · split
        · simp only [log_Fatal, List.append_assoc]
          exact ⟨_, rfl, by simp [configmapCalls], by simpa [Event.manifest] using key⟩
        · split
          · simp only [log_Fatal, List.append_assoc]
            exact ⟨_, rfl, by simp [configmapCalls], by simpa [Event.manifest] using key⟩
          · split
            · simp only [List.append_assoc]
              exact ⟨_, rfl, by simp [configmapCalls], by simpa [Event.manifest] using key⟩
            · simp only [List.append_assoc]
              exact ⟨_, rfl, by simp [configmapCalls], by simpa [Event.manifest] using key⟩

/-! ## `addApiCmd.Run` -/

theorem Res.bind_ret {α β : Type} (r : Res α) (k : α → List Event → Res β) (a : α)
    (h : r.out = .ret a) : r.bind k = k a r.trace := by
  simp [Res.bind, h]

theorem Res.bind_exit {α β : Type} (r : Res α) (k : α → List Event → Res β) (c : Nat)
    (h : r.out = .exit c) : r.bind k = ⟨.exit c, r.trace⟩ := by
  simp [Res.bind, h]

/-- The directory form of the run, unfolded: the swagger create, then the two interceptor
handlers and `createAPI`. -/
theorem addApiCmd_Run_dir (w : World) (f : Flags) (hk : w.KubernetesMode = true)
    (hn : f.flagApiName ≠ "") (hp : f.flagSwaggerFilePath ≠ "")
    (hs : w.stat f.flagSwaggerFilePath = .ok .dir) :
    addApiCmd_Run w f =
      match w.kubectlConfigmap [.println "creating configmap with swagger definition"]
          w.K8sCreate (f.flagApiName ++ "-swagger")
          (w.Join f.flagSwaggerFilePath (filepath_FromSlash "Meta-information/swagger.yaml"))
          f.flagNamespace with
      | some e =>
        ⟨.exit 1, [.println "creating configmap with swagger definition",
          .configmap w.K8sCreate (f.flagApiName ++ "-swagger")
            (w.Join f.flagSwaggerFilePath (filepath_FromSlash "Meta-information/swagger.yaml"))
            f.flagNamespace (some e),
          .handleErrorAndExit "Error creating configmap" none]⟩
      | none =>
        (handleBalInterceptors w [.println "creating configmap with swagger definition",
            .configmap w.K8sCreate (f.flagApiName ++ "-swagger")
              (w.Join f.flagSwaggerFilePath (filepath_FromSlash "Meta-information/swagger.yaml"))
              f.flagNamespace none]
          (f.flagApiName ++ "-interceptors") f.flagSwaggerFilePath "create"
          f.flagNamespace).bind fun balInterceptors tr =>
        (handleJavaInterceptors w tr f.flagSwaggerFilePath "create" f.flagNamespace
          f.flagApiName).bind fun javaInterceptors tr =>
        createAPI w tr f.flagApiName f.flagNamespace (f.flagApiName ++ "-swagger") f.flagReplicas ""
          balInterceptors f.flagOverride javaInterceptors := by
  simp only [addApiCmd_Run, hk, hn, hp, hs, createConfigMapWithNamespace, HandleErrorAndExit,
    if_true, or_self, if_false, List.nil_append, List.cons_append, List.singleton_append]
  split <;> simp_all

/-- The directory form of the run: which creates it can issue, which manifests it can write
or apply, and that a failed create ends it with status 1 before any manifest is written. -/
theorem addApiCmd_Run_dir_spec (w : World) (f : Flags) (hk : w.KubernetesMode = true)
    (hn : f.flagApiName ≠ "") (hp : f.flagSwaggerFilePath ≠ "")
    (hs : w.stat f.flagSwaggerFilePath = .ok .dir) :
    (∀ x ∈ configmapCalls (addApiCmd_Run w f).trace,
      x.2.1 = f.flagApiName ++ "-swagger" ∨
      (x.2.1 = f.flagApiName ++ "-interceptors" ∧
        w.readdir1 (w.Join f.flagSwaggerFilePath (filepath_FromSlash "Interceptors")) = none) ∨
      ∃ p, filepath_Ext p = ".jar" ∧ x.2.1 = libraryName f.flagApiName p) ∧
    (∀ e ∈ (addApiCmd_Run w f).trace, ∀ m, e.manifest = some m →
      ∃ t bal s, w.template = .ok t ∧
        m = createAPI_assign t f.flagApiName f.flagNamespace (f.flagApiName ++ "-swagger")
          f.flagReplicas "" bal f.flagOverride s ∧
        s.toList = (jarPaths (w.walk (w.Join f.flagSwaggerFilePath
          (filepath_FromSlash "libs")))).map (libraryName f.flagApiName) ∧
        (bal = "" ∨ bal = f.flagApiName ++ "-interceptors" ∧
          w.readdir1 (w.Join f.flagSwaggerFilePath (filepath_FromSlash "Interceptors")) = none)) ∧
    ((∃ x ∈ configmapCalls (addApiCmd_Run w f).trace, x.2.2.2.2 ≠ none) →
      (addApiCmd_Run w f).out = .exit 1 ∧ ∀ e ∈ (addApiCmd_Run w f).trace, e.manifest = none) := by
  rw [addApiCmd_Run_dir w f hk hn hp hs]
  cases h0 : w.kubectlConfigmap [.println "creating configmap with swagger definition"]
      w.K8sCreate (f.flagApiName ++ "-swagger")
      (w.Join f.flagSwaggerFilePath (filepath_FromSlash "Meta-information/swagger.yaml"))
      f.flagNamespace with
  | some e => simp [configmapCalls, Event.manifest]
  | none =>
    simp only []
    generalize htr0 : ([.println "creating configmap with swagger definition",
        .configmap w.K8sCreate (f.flagApiName ++ "-swagger")
          (w.Join f.flagSwaggerFilePath (filepath_FromSlash "Meta-information/swagger.yaml"))
          f.flagNamespace none] : List Event) = tr0
    have hc0 : ∀ x ∈ configmapCalls tr0,
        x.2.1 = f.flagApiName ++ "-swagger" ∧ x.2.2.2.2 = none := by
      subst htr0; simp [configmapCalls]
    have hm0 : ∀ e ∈ tr0, e.manifest = none := by
      subst htr0; simp [Event.manifest]
    obtain ⟨l1, hl1, hap1, hnm1, hret1, hexit1⟩ := handleBalInterceptors_spec w tr0
      (f.flagApiName ++ "-interceptors") f.flagSwaggerFilePath "create" f.flagNamespace
    have hcalls1 : ∀ x ∈ configmapCalls (tr0 ++ l1),
        x.2.1 = f.flagApiName ++ "-swagger" ∨
        (x.2.1 = f.flagApiName ++ "-interceptors" ∧
          w.readdir1 (w.Join f.flagSwaggerFilePath (filepath_FromSlash "Interceptors")) = none) ∨
        ∃ p, filepath_Ext p = ".jar" ∧ x.2.1 = libraryName f.flagApiName p := by
      intro x hx
      rw [configmapCalls_append, List.mem_append] at hx
      rcases hx with hx | hx
      · exact Or.inl (hc0 x hx).1
      · exact Or.inr (Or.inl (hnm1 x hx))
    have hman1 : ∀ e ∈ tr0 ++ l1, e.manifest = none := by
      intro e he
      rw [List.mem_append] at he
      rcases he with he | he
      · exact hm0 e he
      · exact hap1 e he
    cases hb : (handleBalInterceptors w tr0 (f.flagApiName ++ "-interceptors")
        f.flagSwaggerFilePath "create" f.flagNamespace).out with
    | exit c =>
      rw [Res.bind_exit _ _ c hb]
      obtain ⟨hc, -⟩ := hexit1 c hb
      subst hc
      simp only [hl1]
      refine ⟨hcalls1, ?_, fun _ => ⟨trivial, hman1⟩⟩
      intro e he m hm
      rw [hman1 e he] at hm
      cases hm
    | ret bal =>
      rw [Res.bind_ret _ _ bal hb, hl1]
      obtain ⟨hok1, hbal⟩ := hret1 bal hb
      obtain ⟨l2, hl2, hap2, hnm2, hret2, hexit2⟩ := handleJavaInterceptors_spec w (tr0 ++ l1)
        f.flagSwaggerFilePath "create" f.flagNamespace f.flagApiName
      have hcalls2 : ∀ x ∈ configmapCalls (tr0 ++ l1 ++ l2),
          x.2.1 = f.flagApiName ++ "-swagger" ∨
          (x.2.1 = f.flagApiName ++ "-interceptors" ∧
            w.readdir1 (w.Join f.flagSwaggerFilePath (filepath_FromSlash "Interceptors")) = none) ∨
          ∃ p, filepath_Ext p = ".jar" ∧ x.2.1 = libraryName f.flagApiName p := by
        intro x hx
        rw [configmapCalls_append, List.mem_append] at hx
        rcases hx with hx | hx
        · exact hcalls1 x hx
        · exact Or.inr (Or.inr (hnm2 x hx))
      have hman2 : ∀ e ∈ tr0 ++ l1 ++ l2, e.manifest = none := by
        intro e he
        rw [List.mem_append] at he
        rcases he with he | he
        · exact hman1 e he
        · exact hap2 e he
      cases hj : (handleJavaInterceptors w (tr0 ++ l1) f.flagSwaggerFilePath "create"
          f.flagNamespace f.flagApiName).out with
      | exit c =>
        rw [Res.bind_exit _ _ c hj]
        obtain ⟨hc, -⟩ := hexit2 c hj
        subst hc
        simp only [hl2]
        refine ⟨hcalls2, ?_, fun _ => ⟨trivial, hman2⟩⟩
        intro e he m hm
        rw [hman2 e he] at hm
        cases hm
      | ret java =>
        rw [Res.bind_ret _ _ java hj, hl2]
        obtain ⟨hnames, hcj⟩ := hret2 java hj
        obtain ⟨l3, hl3, hc3, hm3⟩ := createAPI_spec w (tr0 ++ l1 ++ l2) f.flagApiName
          f.flagNamespace (f.flagApiName ++ "-swagger") f.flagReplicas "" bal f.flagOverride java
        rw [hl3]
        have hcalls3 : configmapCalls (tr0 ++ l1 ++ l2 ++ l3) = configmapCalls (tr0 ++ l1 ++ l2) := by
          rw [configmapCalls_append, hc3, List.append_nil]
        refine ⟨?_, ?_, ?_⟩
        · rw [hcalls3]; exact hcalls2
        · intro e he m hm
          rw [List.mem_append] at he
          rcases he with he | he
          · rw [hman2 e he] at hm
            cases hm
          · obtain ⟨t, ht, hmt⟩ := hm3 e he m hm
            refine ⟨t, bal, java, ht, hmt, hnames, ?_⟩
            rcases hbal with ⟨h, -⟩ | ⟨h, h2, -⟩
            · exact Or.inl h
            · exact Or.inr ⟨h, h2⟩
        · rintro ⟨x, hx, hxe⟩
          exfalso
          rw [hcalls3, configmapCalls_append, configmapCalls_append, List.mem_append,
            List.mem_append] at hx
          rcases hx with (hx | hx) | hx
          · exact hxe (hc0 x hx).2
          · exact hxe (hok1 x hx)
          · rw [hcj] at hx
            simp only [List.mem_map] at hx
            obtain ⟨p, -, rfl⟩ := hx
            exact hxe rfl

/-- The single-file form of the run, unfolded. -/
theorem addApiCmd_Run_regular (w : World) (f : Flags) (hk : w.KubernetesMode = true)
    (hn : f.flagApiName ≠ "") (hp : f.flagSwaggerFilePath ≠ "")
    (hs : w.stat f.flagSwaggerFilePath = .ok .regular) :
    addApiCmd_Run w f =
      match w.kubectlConfigmap [.println "creating configmap with swagger definition"]
          w.K8sCreate (f.flagApiName ++ "-swagger") f.flagSwaggerFilePath f.flagNamespace with
      | some e =>
        ⟨.exit 1, [.println "creating configmap with swagger definition",
          .configmap w.K8sCreate (f.flagApiName ++ "-swagger") f.flagSwaggerFilePath
            f.flagNamespace (some e),
          .handleErrorAndExit "Error creating configmap" none]⟩
      | none =>
        createAPI w [.println "creating configmap with swagger definition",
            .configmap w.K8sCreate (f.flagApiName ++ "-swagger") f.flagSwaggerFilePath
              f.flagNamespace none]
          f.flagApiName f.flagNamespace (f.flagApiName ++ "-swagger") f.flagReplicas ""
          "" f.flagOverride .nil := by
  simp only [addApiCmd_Run, hk, hn, hp, hs, createConfigMapWithNamespace, HandleErrorAndExit,
    if_true, or_self, if_false, List.nil_append, List.cons_append, List.singleton_append]
  split <;> simp_all

/-- The run on a path that is neither a directory nor a regular file, unfolded: no create
is issued and `createAPI` is called all the same. -/
theorem addApiCmd_Run_other (w : World) (f : Flags) (hk : w.KubernetesMode = true)
    (hn : f.flagApiName ≠ "") (hp : f.flagSwaggerFilePath ≠ "")
    (hs : w.stat f.flagSwaggerFilePath = .ok .other) :
    addApiCmd_Run w f =
      createAPI w [] f.flagApiName f.flagNamespace (f.flagApiName ++ "-swagger") f.flagReplicas ""
        "" f.flagOverride .nil := by
  simp only [addApiCmd_Run, hk, hn, hp, hs, if_true, or_self, if_false]

theorem isApply_eq_false_of_manifest {e : Event} (h : e.manifest = none) : e.isApply = false := by
  cases e <;> simp_all [Event.manifest, Event.isApply]

/-- In every run, a failed `kubectl ... configmap` call ends the run with status 1 and no
manifest is written or applied. -/
theorem addApiCmd_Run_failed_create (w : World) (f : Flags)
    (h : ∃ x ∈ configmapCalls (addApiCmd_Run w f).trace, x.2.2.2.2 ≠ none) :
    (addApiCmd_Run w f).out = .exit 1 ∧ ∀ e ∈ (addApiCmd_Run w f).trace, e.manifest = none := by
  by_cases hk : w.KubernetesMode = true
  · by_cases hflags : f.flagApiName = "" ∨ f.flagSwaggerFilePath = ""
    · simp [addApiCmd_Run, hk, hflags, HandleErrorAndExit, configmapCalls] at h
    · have hn : f.flagApiName ≠ "" := fun h0 => hflags (Or.inl h0)
      have hp : f.flagSwaggerFilePath ≠ "" := fun h0 => hflags (Or.inr h0)
      cases hs : w.stat f.flagSwaggerFilePath with
      | error e => simp [addApiCmd_Run, hk, hflags, hs, configmapCalls] at h
      | ok mode =>
        cases mode with
        | dir => exact (addApiCmd_Run_dir_spec w f hk hn hp hs).2.2 h
        | regular =>
          rw [addApiCmd_Run_regular w f hk hn hp hs] at h ⊢
          cases h0 : w.kubectlConfigmap [.println "creating configmap with swagger definition"]
              w.K8sCreate (f.flagApiName ++ "-swagger") f.flagSwaggerFilePath f.flagNamespace with
          | some e => simp [Event.manifest]
          | none =>
            exfalso
            rw [h0] at h
            simp only [] at h
            obtain ⟨l, hl, hc, -⟩ := createAPI_spec w
              [.println "creating configmap with swagger definition",
                .configmap w.K8sCreate (f.flagApiName ++ "-swagger") f.flagSwaggerFilePath
                  f.flagNamespace none]
              f.flagApiName f.flagNamespace (f.flagApiName ++ "-swagger") f.flagReplicas ""
              "" f.flagOverride .nil
            rw [hl, configmapCalls_append, hc] at h
            simp [configmapCalls] at h
        | other =>
          exfalso
          rw [addApiCmd_Run_other w f hk hn hp hs] at h
          obtain ⟨l, hl, hc, -⟩ := createAPI_spec w [] f.flagApiName f.flagNamespace
            (f.flagApiName ++ "-swagger") f.flagReplicas "" "" f.flagOverride .nil
          rw [hl, configmapCalls_append, hc] at h
          simp [configmapCalls] at h
  · simp [addApiCmd_Run, hk, HandleErrorAndExit, configmapCalls] at h

/-- The seven ways `createAPI` can go, with the trace of each. -/
theorem createAPI_cases (w : World) (tr : List Event) (name ns configMapName : String)
    (replicas : Int) (timestamp balInterceptors : String) (override : Bool)
    (javaInterceptors : GoSlice) :
    (∃ e, w.template = .error e ∧
      createAPI w tr name ns configMapName replicas timestamp balInterceptors override
        javaInterceptors =
        ⟨.exit 1, tr ++ [.handleErrorAndExit "Error unmarshal api configmap into struct "
          (some e)]⟩) ∨
    ∃ t, w.template = .ok t ∧
      ((∃ e, w.yamlMarshal (createAPI_assign t name ns configMapName replicas timestamp
          balInterceptors override javaInterceptors) = some e ∧
        createAPI w tr name ns configMapName replicas timestamp balInterceptors override
          javaInterceptors =
          ⟨.exit 1, tr ++ [.handleErrorAndExit "Error marshal api configmap " (some e)]⟩) ∨
      (∃ e, w.tempFile tr = .error e ∧
        createAPI w tr name ns configMapName replicas timestamp balInterceptors override
          javaInterceptors =
          ⟨.exit 1, tr ++ [.logFatal "Cannot create temporary file" e]⟩) ∨
      ∃ tmp, w.yamlMarshal (createAPI_assign t name ns configMapName replicas timestamp
          balInterceptors override javaInterceptors) = none ∧ w.tempFile tr = .ok tmp ∧
        ((∃ e, createAPI w tr name ns configMapName replicas timestamp balInterceptors override
            javaInterceptors =
            ⟨.exit 1, tr ++ [.tempFile tmp,
              .write tmp (createAPI_assign t name ns configMapName replicas timestamp
                balInterceptors override javaInterceptors) (some e),
              .logFatal "Failed to write to temporary file" e]⟩) ∨
        (∃ e, createAPI w tr name ns configMapName replicas timestamp balInterceptors override
            javaInterceptors =
            ⟨.exit 1, tr ++ [.tempFile tmp,
              .write tmp (createAPI_assign t name ns configMapName replicas timestamp
                balInterceptors override javaInterceptors) none,
              .close tmp (some e), .logFatal "" e]⟩) ∨
        (∃ e, createAPI w tr name ns configMapName replicas timestamp balInterceptors override
            javaInterceptors =
            ⟨.ret (), tr ++ [.tempFile tmp,
              .write tmp (createAPI_assign t name ns configMapName replicas timestamp
                balInterceptors override javaInterceptors) none,
              .close tmp none,
              .apply tmp (createAPI_assign t name ns configMapName replicas timestamp
                balInterceptors override javaInterceptors) ns (some e),
              .println e, .remove tmp]⟩) ∨
        createAPI w tr name ns configMapName replicas timestamp balInterceptors override
            javaInterceptors =
            ⟨.ret (), tr ++ [.tempFile tmp,
              .write tmp (createAPI_assign t name ns configMapName replicas timestamp
                balInterceptors override javaInterceptors) none,
              .close tmp none,
              .apply tmp (createAPI_assign t name ns configMapName replicas timestamp
                balInterceptors override javaInterceptors) ns none,
              .remove tmp]⟩)) := by
  cases ht : w.template with
  | error e => left; exact ⟨e, rfl, by simp [createAPI, ht, HandleErrorAndExit]⟩
  | ok t =>
    right
    refine ⟨t, rfl, ?_⟩
    cases hmar : w.yamlMarshal (createAPI_assign t name ns configMapName replicas timestamp
        balInterceptors override javaInterceptors) with
    | some e => left; exact ⟨e, rfl, by simp [createAPI, ht, hmar, HandleErrorAndExit]⟩
    | none =>
      right
      cases htmp : w.tempFile tr with
      | error e => left; exact ⟨e, rfl, by simp [createAPI, ht, hmar, htmp, log_Fatal]⟩
      | ok tmp =>
        right
        refine ⟨tmp, rfl, rfl, ?_⟩
        cases hw : w.write (tr ++ [.tempFile tmp]) tmp with
        | some e => left; exact ⟨e, by simp [createAPI, ht, hmar, htmp, hw, log_Fatal]⟩
        | none =>
          right
          cases hc : w.close (tr ++ [.tempFile tmp,
              .write tmp (createAPI_assign t name ns configMapName replicas timestamp
                balInterceptors override javaInterceptors) none]) tmp with
          | some e => left; exact ⟨e, by simp [createAPI, ht, hmar, htmp, hw, hc, log_Fatal]⟩
          | none =>
            right
            cases ha : w.kubectlApply (tr ++ [.tempFile tmp,
                .write tmp (createAPI_assign t name ns configMapName replicas timestamp
                  balInterceptors override javaInterceptors) none,
                .close tmp none]) tmp ns with
            | some e => left; exact ⟨e, by simp [createAPI, ht, hmar, htmp, hw, hc, ha]⟩
            | none => right; simp [createAPI, ht, hmar, htmp, hw, hc, ha]

/-- When `createAPI` issues an apply that fails, it prints the error, removes the temporary
file and returns. -/
theorem createAPI_apply_failed (w : World) (tr : List Event) (name ns configMapName : String)
    (replicas : Int) (timestamp balInterceptors : String) (override : Bool)
    (javaInterceptors : GoSlice) (file : String) (m : API) (ns1 : String) (e : Err)
    (h : Event.apply file m ns1 (some e) ∈ (createAPI w tr name ns configMapName replicas
      timestamp balInterceptors override javaInterceptors).added tr) :
    (createAPI w tr name ns configMapName replicas timestamp balInterceptors override
      javaInterceptors).out = .ret () ∧
    ∃ pre, (createAPI w tr name ns configMapName replicas timestamp balInterceptors override
      javaInterceptors).trace =
        pre ++ [.apply file m ns1 (some e), .println e, .remove file] := by
  rcases createAPI_cases w tr name ns configMapName replicas timestamp balInterceptors override
    javaInterceptors with ⟨e1, -, h1⟩ | ⟨t, -, ⟨e1, -, h1⟩ | ⟨e1, -, h1⟩ |
      ⟨tmp, -, -, ⟨e1, h1⟩ | ⟨e1, h1⟩ | ⟨e1, h1⟩ | h1⟩⟩
  all_goals rw [h1] at h ⊢
  all_goals simp [Res.added] at h
  obtain ⟨rfl, rfl, rfl, rfl⟩ := h
  exact ⟨rfl, tr ++ [.tempFile file,
    .write file (createAPI_assign t name ns1 configMapName replicas timestamp balInterceptors
      override javaInterceptors) none, .close file none], by simp⟩

/-- The temporary file that `createAPI` creates is removed exactly when `createAPI` returns:
on the paths that end in `log.Fatal` the deferred removal does not run. -/
theorem createAPI_remove_iff_returns (w : World) (tr : List Event) (name ns configMapName : String)
    (replicas : Int) (timestamp balInterceptors : String) (override : Bool)
    (javaInterceptors : GoSlice) (tmp : String)
    (h : Event.tempFile tmp ∈ (createAPI w tr name ns configMapName replicas
      timestamp balInterceptors override javaInterceptors).added tr) :
    (Event.remove tmp ∈ (createAPI w tr name ns configMapName replicas
      timestamp balInterceptors override javaInterceptors).added tr ↔
    (createAPI w tr name ns configMapName replicas timestamp balInterceptors override
      javaInterceptors).out = .ret ()) := by
  rcases createAPI_cases w tr name ns configMapName replicas timestamp balInterceptors override
    javaInterceptors with ⟨e1, -, h1⟩ | ⟨t, -, ⟨e1, -, h1⟩ | ⟨e1, -, h1⟩ |
      ⟨tmp1, -, -, ⟨e1, h1⟩ | ⟨e1, h1⟩ | ⟨e1, h1⟩ | h1⟩⟩
  all_goals rw [h1] at h ⊢
  all_goals simp [Res.added] at h ⊢
  all_goals exact h

/-- Every run either carries no manifest at all or is a call of `createAPI` made after a
history that carries none. -/
theorem addApiCmd_Run_skeleton (w : World) (f : Flags) :
    (∀ e ∈ (addApiCmd_Run w f).trace, e.manifest = none) ∨
    ∃ tr bal s, (∀ e ∈ tr, e.manifest = none) ∧
      addApiCmd_Run w f = createAPI w tr f.flagApiName f.flagNamespace
        (f.flagApiName ++ "-swagger") f.flagReplicas "" bal f.flagOverride s := by
  by_cases hk : w.KubernetesMode = true
  · by_cases hflags : f.flagApiName = "" ∨ f.flagSwaggerFilePath = ""
    · left; simp [addApiCmd_Run, hk, hflags, HandleErrorAndExit, Event.manifest]
    · have hn : f.flagApiName ≠ "" := fun h0 => hflags (Or.inl h0)
      have hp : f.flagSwaggerFilePath ≠ "" := fun h0 => hflags (Or.inr h0)
      cases hs : w.stat f.flagSwaggerFilePath with
      | error e => left; simp [addApiCmd_Run, hk, hflags, hs, Event.manifest]
      | ok mode =>
        cases mode with
        | dir =>
          rw [addApiCmd_Run_dir w f hk hn hp hs]
          cases h0 : w.kubectlConfigmap [.println "creating configmap with swagger definition"]
              w.K8sCreate (f.flagApiName ++ "-swagger")
              (w.Join f.flagSwaggerFilePath (filepath_FromSlash "Meta-information/swagger.yaml"))
              f.flagNamespace with
          | some e => left; simp [Event.manifest]
          | none =>
            simp only []
            generalize htr0 : ([.println "creating configmap with swagger definition",
                .configmap w.K8sCreate (f.flagApiName ++ "-swagger")
                  (w.Join f.flagSwaggerFilePath
                    (filepath_FromSlash "Meta-information/swagger.yaml"))
                  f.flagNamespace none] : List Event) = tr0
            have hm0 : ∀ e ∈ tr0, e.manifest = none := by
              subst htr0; simp [Event.manifest]
            obtain ⟨l1, hl1, hap1, -, -, -⟩ := handleBalInterceptors_spec w tr0
              (f.flagApiName ++ "-interceptors") f.flagSwaggerFilePath "create" f.flagNamespace
            have hman1 : ∀ e ∈ tr0 ++ l1, e.manifest = none := by
              intro e he
              rw [List.mem_append] at he
              rcases he with he | he
              · exact hm0 e he
              · exact hap1 e he
            cases hb : (handleBalInterceptors w tr0 (f.flagApiName ++ "-interceptors")
                f.flagSwaggerFilePath "create" f.flagNamespace).out with
            | exit c =>
              left
              rw [Res.bind_exit _ _ c hb]
              simpa only [hl1] using hman1
            | ret bal =>
              rw [Res.bind_ret _ _ bal hb, hl1]
              obtain ⟨l2, hl2, hap2, -, -, -⟩ := handleJavaInterceptors_spec w (tr0 ++ l1)
                f.flagSwaggerFilePath "create" f.flagNamespace f.flagApiName
              have hman2 : ∀ e ∈ tr0 ++ l1 ++ l2, e.manifest = none := by
                intro e he
                rw [List.mem_append] at he
                rcases he with he | he
                · exact hman1 e he
                · exact hap2 e he
              cases hj : (handleJavaInterceptors w (tr0 ++ l1) f.flagSwaggerFilePath "create"
                  f.flagNamespace f.flagApiName).out with
              | exit c =>
                left
                rw [Res.bind_exit _ _ c hj]
                simpa only [hl2] using hman2
              | ret java =>
                right
                rw [Res.bind_ret _ _ java hj, hl2]
                exact ⟨_, bal, java, hman2, rfl⟩
        | regular =>
          rw [addApiCmd_Run_regular w f hk hn hp hs]
          cases h0 : w.kubectlConfigmap [.println "creating configmap with swagger definition"]
              w.K8sCreate (f.flagApiName ++ "-swagger") f.flagSwaggerFilePath f.flagNamespace with
          | some e => left; simp [Event.manifest]
          | none => right; exact ⟨_, "", .nil, by simp [Event.manifest], rfl⟩
        | other =>
          right
          rw [addApiCmd_Run_other w f hk hn hp hs]
          exact ⟨[], "", .nil, by simp, rfl⟩
  · left; simp [addApiCmd_Run, hk, HandleErrorAndExit, Event.manifest]

/-- In the directory form and in the single-file form, a run that reaches `createAPI` has
by then created, with success, the swagger object, the interceptor object whose name it
passes on (if any) and every library object whose name it passes on. -/
theorem addApiCmd_Run_created_before_createAPI (w : World) (f : Flags)
    (hform : w.stat f.flagSwaggerFilePath = .ok .dir ∨
      w.stat f.flagSwaggerFilePath = .ok .regular) :
    (∀ e ∈ (addApiCmd_Run w f).trace, e.manifest = none) ∨
    ∃ tr bal s, (∀ e ∈ tr, e.manifest = none) ∧
      addApiCmd_Run w f = createAPI w tr f.flagApiName f.flagNamespace
        (f.flagApiName ++ "-swagger") f.flagReplicas "" bal f.flagOverride s ∧
      (∃ x ∈ configmapCalls tr, x.2.1 = f.flagApiName ++ "-swagger" ∧ x.2.2.2.2 = none) ∧
      (bal = "" ∨ ∃ x ∈ configmapCalls tr, x.2.1 = bal ∧ x.2.2.2.2 = none) ∧
      (∀ name ∈ s.toList, ∃ x ∈ configmapCalls tr, x.2.1 = name ∧ x.2.2.2.2 = none) := by
  by_cases hk : w.KubernetesMode = true
  · by_cases hflags : f.flagApiName = "" ∨ f.flagSwaggerFilePath = ""
    · left; simp [addApiCmd_Run, hk, hflags, HandleErrorAndExit, Event.manifest]
    · have hn : f.flagApiName ≠ "" := fun h0 => hflags (Or.inl h0)
      have hp : f.flagSwaggerFilePath ≠ "" := fun h0 => hflags (Or.inr h0)
      rcases hform with hs | hs
      · rw [addApiCmd_Run_dir w f hk hn hp hs]
        cases h0 : w.kubectlConfigmap [.println "creating configmap with swagger definition"]
            w.K8sCreate (f.flagApiName ++ "-swagger")
            (w.Join f.flagSwaggerFilePath (filepath_FromSlash "Meta-information/swagger.yaml"))
            f.flagNamespace with
        | some e => left; simp [Event.manifest]
        | none =>
          simp only []
          generalize htr0 : ([.println "creating configmap with swagger definition",
              .configmap w.K8sCreate (f.flagApiName ++ "-swagger")
                (w.Join f.flagSwaggerFilePath
                  (filepath_FromSlash "Meta-information/swagger.yaml"))
                f.flagNamespace none] : List Event) = tr0
          have hm0 : ∀ e ∈ tr0, e.manifest = none := by
            subst htr0; simp [Event.manifest]
          have hsw0 : ∃ x ∈ configmapCalls tr0,
              x.2.1 = f.flagApiName ++ "-swagger" ∧ x.2.2.2.2 = none := by
            subst htr0; simp [configmapCalls]
          obtain ⟨l1, hl1, hap1, -, hret1, -⟩ := handleBalInterceptors_spec w tr0
            (f.flagApiName ++ "-interceptors") f.flagSwaggerFilePath "create" f.flagNamespace
          have hman1 : ∀ e ∈ tr0 ++ l1, e.manifest = none := by
            intro e he
            rw [List.mem_append] at he
            rcases he with he | he
            · exact hm0 e he
            · exact hap1 e he
          cases hb : (handleBalInterceptors w tr0 (f.flagApiName ++ "-interceptors")
              f.flagSwaggerFilePath "create" f.flagNamespace).out with
          | exit c =>
            left
            rw [Res.bind_exit _ _ c hb]
            simpa only [hl1] using hman1
          | ret bal =>
            rw [Res.bind_ret _ _ bal hb, hl1]
            obtain ⟨-, hbal⟩ := hret1 bal hb
            obtain ⟨l2, hl2, hap2, -, hret2, -⟩ := handleJavaInterceptors_spec w (tr0 ++ l1)
              f.flagSwaggerFilePath "create" f.flagNamespace f.flagApiName
            have hman2 : ∀ e ∈ tr0 ++ l1 ++ l2, e.manifest = none := by
              intro e he
              rw [List.mem_append] at he
              rcases he with he | he
              · exact hman1 e he
              · exact hap2 e he
            cases hj : (handleJavaInterceptors w (tr0 ++ l1) f.flagSwaggerFilePath "create"
                f.flagNamespace f.flagApiName).out with
            | exit c =>
              left
              rw [Res.bind_exit _ _ c hj]
              simpa only [hl2] using hman2
            | ret java =>
              right
              rw [Res.bind_ret _ _ java hj, hl2]
              obtain ⟨hnames, hcj⟩ := hret2 java hj
              refine ⟨_, bal, java, hman2, rfl, ?_, ?_, ?_⟩
              · obtain ⟨x, hx, hx2⟩ := hsw0
                exact ⟨x, by simp [configmapCalls_append, hx], hx2⟩
              · rcases hbal with ⟨h, -⟩ | ⟨h, -, file, ns1, op, hmem⟩
                · exact Or.inl h
                · right
                  refine ⟨(op, f.flagApiName ++ "-interceptors", file, ns1, none), ?_, h.symm,
                    rfl⟩
                  simp only [configmapCalls_append, List.mem_append]
                  exact Or.inl (Or.inr hmem)
              · intro name hname
                rw [hnames, List.mem_map] at hname
                obtain ⟨p, hpmem, rfl⟩ := hname
                refine ⟨("create", libraryName f.flagApiName p, p, f.flagNamespace, none), ?_,
                  rfl, rfl⟩
                simp only [configmapCalls_append, List.mem_append]
                right
                rw [hcj, List.mem_map]
                exact ⟨p, hpmem, rfl⟩
      · rw [addApiCmd_Run_regular w f hk hn hp hs]
        cases h0 : w.kubectlConfigmap [.println "creating configmap with swagger definition"]
            w.K8sCreate (f.flagApiName ++ "-swagger") f.flagSwaggerFilePath f.flagNamespace with
        | some e => left; simp [Event.manifest]
        | none =>
          right
          exact ⟨_, "", .nil, by simp [Event.manifest], rfl, by simp [configmapCalls],
            Or.inl rfl, by simp [GoSlice.toList]⟩
  · left; simp [addApiCmd_Run, hk, HandleErrorAndExit, Event.manifest]

/-- In the directory form and in the single-file form, every configuration-object name that
an applied manifest references (the swagger name, the interceptor name if the run set one,
each library name) was the target of a create call that succeeded earlier in the run. -/
theorem addApiCmd_Run_references_created (w : World) (f : Flags)
    (hform : w.stat f.flagSwaggerFilePath = .ok .dir ∨
      w.stat f.flagSwaggerFilePath = .ok .regular)
    (pre post : List Event) (file : String) (m : API) (ns : String) (err : Option Err)
    (htrace : (addApiCmd_Run w f).trace = pre ++ Event.apply file m ns err :: post) :
    ∃ t, w.template = .ok t ∧
      (∃ x ∈ configmapCalls pre,
        x.2.1 = m.Spec.Definition.SwaggerConfigmapName ∧ x.2.2.2.2 = none) ∧
      (m.Spec.Definition.Interceptors.Ballerina = t.Spec.Definition.Interceptors.Ballerina ∨
        ∃ x ∈ configmapCalls pre,
          x.2.1 = m.Spec.Definition.Interceptors.Ballerina ∧ x.2.2.2.2 = none) ∧
      (∀ name ∈ m.Spec.Definition.Interceptors.Java.toList,
        ∃ x ∈ configmapCalls pre, x.2.1 = name ∧ x.2.2.2.2 = none) := by
  have hmem : Event.apply file m ns err ∈ (addApiCmd_Run w f).trace := by
    rw [htrace]; simp
  rcases addApiCmd_Run_created_before_createAPI w f hform with hnone |
    ⟨tr, bal, s, htr, hrun, hsw, hbal, hlib⟩
  · have := hnone _ hmem
    simp [Event.manifest] at this
  · obtain ⟨l, hl, -, hm⟩ := createAPI_spec w tr f.flagApiName f.flagNamespace
      (f.flagApiName ++ "-swagger") f.flagReplicas "" bal f.flagOverride s
    rw [hrun, hl] at htrace hmem
    have hpre : ∃ c, pre = tr ++ c := by
      rcases List.append_eq_append_iff.1 htrace with ⟨c, h1, -⟩ | ⟨a, h1, h2⟩
      · exact ⟨c, h1⟩
      · cases a with
        | nil => exact ⟨[], by simp [h1]⟩
        | cons a0 a1 =>
          exfalso
          simp only [List.cons_append, List.cons.injEq] at h2
          have hin : Event.apply file m ns err ∈ tr := by
            rw [h1, h2.1]; simp
          have := htr _ hin
          simp [Event.manifest] at this
    obtain ⟨c, hc⟩ := hpre
    have hsub : ∀ x ∈ configmapCalls tr, x ∈ configmapCalls pre := by
      intro x hx
      rw [hc, configmapCalls_append]
      exact List.mem_append_left _ hx
    have hml : Event.apply file m ns err ∈ l := by
      rw [List.mem_append] at hmem
      rcases hmem with h | h
      · have := htr _ h
        simp [Event.manifest] at this
      · exact h
    obtain ⟨t, ht, hmt⟩ := hm _ hml m rfl
    refine ⟨t, ht, ?_, ?_, ?_⟩
    · obtain ⟨x, hx, hx1, hx2⟩ := hsw
      exact ⟨x, hsub x hx, by rw [hmt]; exact hx1, hx2⟩
    · rcases hbal with h | ⟨x, hx, hx1, hx2⟩
      · left
        rw [hmt, h]
        simp [createAPI_assign]
      · by_cases hb : bal = ""
        · left
          rw [hmt, hb]
          simp [createAPI_assign]
        · right
          refine ⟨x, hsub x hx, ?_, hx2⟩
          rw [hmt]
          simp [createAPI_assign, hb, hx1]
    · intro name hname
      rw [hmt, createAPI_assign_Java] at hname
      obtain ⟨x, hx, hx1, hx2⟩ := hlib name hname
      exact ⟨x, hsub x hx, hx1, hx2⟩

/-! ## Claims on the synchronization -/

/-- C1: for every API name and every sequence of paths enumerated under the project's libs
directory, when the directory opens and every create call succeeds, `handleJavaInterceptors`
returns exactly the names `apiName-basename(p)` of the enumerated paths `p` with extension
`.jar`, in enumeration order, and issues exactly one create per such path (that name, `p` as
source) and none for any other path; in the directory form of the run, this list is the
library reference list of every applied manifest. -/
theorem C1_handleJavaInterceptors_names (w : World) (tr : List Event)
    (path operation ns flagApiName : String)
    (hopen : w.osOpen (w.Join path (filepath_FromSlash "libs")) = none)
    (hok : ∀ x ∈ configmapCalls
      ((handleJavaInterceptors w tr path operation ns flagApiName).added tr), x.2.2.2.2 = none) :
    (∃ s, (handleJavaInterceptors w tr path operation ns flagApiName).out = .ret s ∧
      s.toList = ((w.walk (w.Join path (filepath_FromSlash "libs"))).filter
        (fun p => filepath_Ext p = ".jar")).map (fun p => flagApiName ++ "-" ++ filepath_Base p)) ∧
    configmapCalls ((handleJavaInterceptors w tr path operation ns flagApiName).added tr) =
      ((w.walk (w.Join path (filepath_FromSlash "libs"))).filter
        (fun p => filepath_Ext p = ".jar")).map
        (fun p => (operation, flagApiName ++ "-" ++ filepath_Base p, p, ns, none)) ∧
    (∀ f : Flags, f.flagSwaggerFilePath = path → f.flagApiName = flagApiName →
      w.KubernetesMode = true → flagApiName ≠ "" → path ≠ "" → w.stat path = .ok .dir →
      ∀ file m ns1 e, Event.apply file m ns1 e ∈ (addApiCmd_Run w f).trace →
        m.Spec.Definition.Interceptors.Java =
          .mk (((w.walk (w.Join path (filepath_FromSlash "libs"))).filter
            (fun p => filepath_Ext p = ".jar")).map
            (fun p => flagApiName ++ "-" ++ filepath_Base p))) := by
  obtain ⟨l, hl, -, -, hret, hexit⟩ :=
    handleJavaInterceptors_spec w tr path operation ns flagApiName
  rw [added_of_trace _ tr l hl] at hok ⊢
  refine ⟨?_, ?_, ?_⟩
  · cases ho : (handleJavaInterceptors w tr path operation ns flagApiName).out with
    | ret s => exact ⟨s, rfl, (hret s ho).1⟩
    | exit c =>
      exfalso
      rcases (hexit c ho).2 with h | ⟨x, hx, hne⟩
      · exact h hopen
      · exact hne (hok x hx)
  · cases ho : (handleJavaInterceptors w tr path operation ns flagApiName).out with
    | ret s => exact (hret s ho).2
    | exit c =>
      exfalso
      rcases (hexit c ho).2 with h | ⟨x, hx, hne⟩
      · exact h hopen
      · exact hne (hok x hx)
  · intro f hf1 hf2 hk hn hp hs file m ns1 e hmem
    subst hf1 hf2
    obtain ⟨t, bal, s, -, hm, hs1, -⟩ :=
      (addApiCmd_Run_dir_spec w f hk hn hp hs).2.1 _ hmem m rfl
    rw [hm, createAPI_assign_Java, hs1]
    rfl

/-- C1 at `exWorld`: two jars among four enumerated paths. -/
theorem C1_handleJavaInterceptors_names_witness :
    exWorld.osOpen (exWorld.Join "proj" (filepath_FromSlash "libs")) = none ∧
    (∀ x ∈ configmapCalls
      ((handleJavaInterceptors exWorld [] "proj" "create" "wso2" "petstore").added []),
      x.2.2.2.2 = none) ∧
    (∃ s, (handleJavaInterceptors exWorld [] "proj" "create" "wso2" "petstore").out = .ret s ∧
      s.toList = ["petstore-a.jar", "petstore-b.jar"]) :=
  ⟨by decide, by decide,
    (C1_handleJavaInterceptors_names exWorld [] "proj" "create" "wso2" "petstore"
      (by decide) (by decide)).1⟩

/-- C2: in every run (directory form or single-file form) in which the create call for the
swagger configuration object `<api-name>-swagger` fails, the run ends with exit status 1 and
the apply command is never invoked. -/
theorem C2_swagger_create_failure_is_fatal (w : World) (f : Flags)
    (hfail : ∃ operation filePath ns e,
      Event.configmap operation (f.flagApiName ++ "-swagger") filePath ns (some e) ∈
        (addApiCmd_Run w f).trace) :
    (addApiCmd_Run w f).out = .exit 1 ∧ ∀ e ∈ (addApiCmd_Run w f).trace, e.isApply = false := by
  obtain ⟨operation, filePath, ns, e, hmem⟩ := hfail
  have h := addApiCmd_Run_failed_create w f
    ⟨(operation, f.flagApiName ++ "-swagger", filePath, ns, some e),
      (mem_configmapCalls _ _).2 hmem, by simp⟩
  exact ⟨h.1, fun e he => isApply_eq_false_of_manifest (h.2 e he)⟩

/-- C2 at `exWorldSwaggerFails`, directory form. -/
theorem C2_swagger_create_failure_is_fatal_witness :
    (∃ operation filePath ns e,
      Event.configmap operation (exFlags.flagApiName ++ "-swagger") filePath ns (some e) ∈
        (addApiCmd_Run exWorldSwaggerFails exFlags).trace) ∧
    (addApiCmd_Run exWorldSwaggerFails exFlags).out = .exit 1 ∧
    ∀ e ∈ (addApiCmd_Run exWorldSwaggerFails exFlags).trace, e.isApply = false :=
  ⟨⟨"create", "proj/Meta-information/swagger.yaml", "wso2", "exit status 1", by decide⟩,
    C2_swagger_create_failure_is_fatal exWorldSwaggerFails exFlags
      ⟨"create", "proj/Meta-information/swagger.yaml", "wso2", "exit status 1", by decide⟩⟩

/-- C3 (the code breaks it): when the swagger path is neither a directory nor a regular file
(here a character device), the run issues no create call at all and still applies a manifest
that references `petstore-swagger`. -/
theorem C3_device_path_applies_uncreated_reference :
    exWorld.KubernetesMode = true ∧
    exWorld.stat exFlagsDevice.flagSwaggerFilePath = .ok .other ∧
    configmapCalls (addApiCmd_Run exWorld exFlagsDevice).trace = [] ∧
    (addApiCmd_Run exWorld exFlagsDevice).out = .ret () ∧
    ∃ file m ns, Event.apply file m ns none ∈ (addApiCmd_Run exWorld exFlagsDevice).trace ∧
      m.Spec.Definition.SwaggerConfigmapName = exFlagsDevice.flagApiName ++ "-swagger" :=
  ⟨by decide, rfl, by decide, by decide,
    "/tmp/apicr-1.yaml",
    createAPI_assign exTemplate "petstore" "wso2" "petstore-swagger" 3 "" "" false .nil,
    "wso2", by decide, by decide⟩

/-- C4: in every directory-form run whose interceptors folder opens and is empty (reading one
entry fails), `handleBalInterceptors` returns the empty name without adding any event, no
create call of the whole run is for `<api-name>-interceptors`, and every manifest written or
applied keeps the template's interceptor reference. -/
theorem C4_empty_interceptors_folder (w : World) (f : Flags) (hk : w.KubernetesMode = true)
    (hn : f.flagApiName ≠ "") (hp : f.flagSwaggerFilePath ≠ "")
    (hs : w.stat f.flagSwaggerFilePath = .ok .dir)
    (hopen : w.osOpen (w.Join f.flagSwaggerFilePath (filepath_FromSlash "Interceptors")) = none)
    (hempty : w.readdir1 (w.Join f.flagSwaggerFilePath (filepath_FromSlash "Interceptors")) ≠ none) :
    (∀ tr, handleBalInterceptors w tr (f.flagApiName ++ "-interceptors") f.flagSwaggerFilePath
      "create" f.flagNamespace = ⟨.ret "", tr⟩) ∧
    (∀ x ∈ configmapCalls (addApiCmd_Run w f).trace, x.2.1 ≠ f.flagApiName ++ "-interceptors") ∧
    (∀ e ∈ (addApiCmd_Run w f).trace, ∀ m, e.manifest = some m →
      ∃ t, w.template = .ok t ∧
        m.Spec.Definition.Interceptors.Ballerina = t.Spec.Definition.Interceptors.Ballerina) := by
  obtain ⟨h1, h2, -⟩ := addApiCmd_Run_dir_spec w f hk hn hp hs
  refine ⟨?_, ?_, ?_⟩
  · intro tr
    cases hr : w.readdir1 (w.Join f.flagSwaggerFilePath (filepath_FromSlash "Interceptors")) with
    | none => exact absurd hr hempty
    | some e => simp [handleBalInterceptors, hopen, hr]
  · intro x hx hname
    rcases h1 x hx with h | ⟨-, h⟩ | ⟨p, hpj, h⟩
    · rw [hname] at h
      exact swagger_ne_interceptors _ h.symm
    · exact hempty h
    · rw [hname] at h
      exact libraryName_ne_interceptors _ p hpj h.symm
  · intro e he m hm
    obtain ⟨t, bal, s, ht, hmt, -, hbal⟩ := h2 e he m hm
    refine ⟨t, ht, ?_⟩
    rcases hbal with hb | ⟨-, hb⟩
    · rw [hmt, hb]
      simp [createAPI_assign]
    · exact absurd hb hempty

/-- C4 at `exWorld`, whose `Interceptors` folder is empty. -/
theorem C4_empty_interceptors_folder_witness :
    (exWorld.KubernetesMode = true ∧ exFlags.flagApiName ≠ "" ∧ exFlags.flagSwaggerFilePath ≠ "" ∧
      exWorld.stat exFlags.flagSwaggerFilePath = .ok .dir ∧
      exWorld.osOpen (exWorld.Join exFlags.flagSwaggerFilePath
        (filepath_FromSlash "Interceptors")) = none ∧
      exWorld.readdir1 (exWorld.Join exFlags.flagSwaggerFilePath
        (filepath_FromSlash "Interceptors")) ≠ none) ∧
    (∃ file m ns e, Event.apply file m ns e ∈ (addApiCmd_Run exWorld exFlags).trace) ∧
    (∀ x ∈ configmapCalls (addApiCmd_Run exWorld exFlags).trace,
      x.2.1 ≠ exFlags.flagApiName ++ "-interceptors") ∧
    (∀ e ∈ (addApiCmd_Run exWorld exFlags).trace, ∀ m, e.manifest = some m →
      ∃ t, exWorld.template = .ok t ∧
        m.Spec.Definition.Interceptors.Ballerina = t.Spec.Definition.Interceptors.Ballerina) :=
  ⟨⟨by decide, by decide, by decide, rfl, by decide, by decide⟩,
    ⟨"/tmp/apicr-1.yaml",
      createAPI_assign exTemplate "petstore" "wso2" "petstore-swagger" 3 "" "" false
        (.mk ["petstore-a.jar", "petstore-b.jar"]), "wso2", none, by decide⟩,
    (C4_empty_interceptors_folder exWorld exFlags (by decide) (by decide) (by decide) rfl
      (by decide) (by decide)).2⟩

/-- C5 as stated fails: at `exWorldNoInterceptorsDir` the directory form is used, the
interceptor-code directory cannot be opened, and the run does not continue: interceptor
handling ends the process with status 1, right after the swagger create, with no library
create and no apply. -/
theorem C5_absent_interceptors_dir_counterexample :
    exWorldNoInterceptorsDir.stat exFlags.flagSwaggerFilePath = .ok .dir ∧
    exWorldNoInterceptorsDir.osOpen (exWorldNoInterceptorsDir.Join exFlags.flagSwaggerFilePath
      (filepath_FromSlash "Interceptors")) ≠ none ∧
    (addApiCmd_Run exWorldNoInterceptorsDir exFlags).out = .exit 1 ∧
    (addApiCmd_Run exWorldNoInterceptorsDir exFlags).trace =
      [.println "creating configmap with swagger definition",
        .configmap "create" "petstore-swagger" "proj/Meta-information/swagger.yaml" "wso2" none,
        .handleErrorAndExit "cannot open interceptors Dir"
          (some "open proj/Interceptors: no such file or directory")] :=
  ⟨rfl, by decide, by decide, by decide⟩

/-- C5, amended: in every directory-form run whose interceptor-code directory cannot be opened,
interceptor handling is an error: `handleBalInterceptors` reports "cannot open
interceptors Dir" with the cause and the process exits with status 1; the run ends with
status 1, its only create call is the swagger one, nothing is applied, and when the swagger
create succeeded the report is in the trace. -/
theorem C5_absent_interceptors_dir_is_fatal (w : World) (f : Flags) (e : Err)
    (hk : w.KubernetesMode = true) (hn : f.flagApiName ≠ "") (hp : f.flagSwaggerFilePath ≠ "")
    (hs : w.stat f.flagSwaggerFilePath = .ok .dir)
    (hopen : w.osOpen (w.Join f.flagSwaggerFilePath (filepath_FromSlash "Interceptors")) = some e) :
    (∀ tr, handleBalInterceptors w tr (f.flagApiName ++ "-interceptors") f.flagSwaggerFilePath
      "create" f.flagNamespace =
        ⟨.exit 1, tr ++ [.handleErrorAndExit "cannot open interceptors Dir" (some e)]⟩) ∧
    (addApiCmd_Run w f).out = .exit 1 ∧
    (∀ x ∈ (addApiCmd_Run w f).trace, x.isApply = false) ∧
    (∀ x ∈ configmapCalls (addApiCmd_Run w f).trace, x.2.1 = f.flagApiName ++ "-swagger") ∧
    ((∀ x ∈ configmapCalls (addApiCmd_Run w f).trace, x.2.2.2.2 = none) →
      Event.handleErrorAndExit "cannot open interceptors Dir" (some e) ∈
        (addApiCmd_Run w f).trace) := by
  have hbal : ∀ tr, handleBalInterceptors w tr (f.flagApiName ++ "-interceptors")
      f.flagSwaggerFilePath "create" f.flagNamespace =
        ⟨.exit 1, tr ++ [.handleErrorAndExit "cannot open interceptors Dir" (some e)]⟩ := by
    intro tr
    simp [handleBalInterceptors, hopen, HandleErrorAndExit]
  refine ⟨hbal, ?_⟩
  rw [addApiCmd_Run_dir w f hk hn hp hs]
  cases h0 : w.kubectlConfigmap [.println "creating configmap with swagger definition"]
      w.K8sCreate (f.flagApiName ++ "-swagger")
      (w.Join f.flagSwaggerFilePath (filepath_FromSlash "Meta-information/swagger.yaml"))
      f.flagNamespace with
  | some e1 => simp [configmapCalls, Event.isApply]
  | none => simp [hbal, Res.bind, configmapCalls, Event.isApply]

/-- C5 (amended) at `exWorldNoInterceptorsDir`. -/
theorem C5_absent_interceptors_dir_is_fatal_witness :
    (exWorldNoInterceptorsDir.KubernetesMode = true ∧ exFlags.flagApiName ≠ "" ∧
      exFlags.flagSwaggerFilePath ≠ "" ∧
      exWorldNoInterceptorsDir.stat exFlags.flagSwaggerFilePath = .ok .dir ∧
      exWorldNoInterceptorsDir.osOpen (exWorldNoInterceptorsDir.Join exFlags.flagSwaggerFilePath
        (filepath_FromSlash "Interceptors")) =
        some "open proj/Interceptors: no such file or directory") ∧
    (addApiCmd_Run exWorldNoInterceptorsDir exFlags).out = .exit 1 ∧
    (∀ x ∈ (addApiCmd_Run exWorldNoInterceptorsDir exFlags).trace, x.isApply = false) :=
  ⟨⟨by decide, by decide, by decide, rfl, by decide⟩,
    (C5_absent_interceptors_dir_is_fatal exWorldNoInterceptorsDir exFlags
      "open proj/Interceptors: no such file or directory"
      (by decide) (by decide) (by decide) rfl (by decide)).2.1,
    (C5_absent_interceptors_dir_is_fatal exWorldNoInterceptorsDir exFlags
      "open proj/Interceptors: no such file or directory"
      (by decide) (by decide) (by decide) rfl (by decide)).2.2.1⟩

/-- C8: for every call of `createAPI` whose template unmarshals to `t`, every manifest the
call writes or applies is `t` with name, namespace, swagger-reference name, replica count and
override flag set to the arguments, the update timestamp replaced exactly when the argument is
non-empty, the interceptor reference replaced exactly when the argument is non-empty, the
library list equal to the given one (non-nil even when none were given), and every other field
as in `t`; and that manifest is written once it is marshalled and the temporary file exists. -/
theorem C8_createAPI_manifest_frame (w : World) (tr : List Event) (name ns configMapName : String)
    (replicas : Int) (timestamp balInterceptors : String) (override : Bool)
    (javaInterceptors : GoSlice) (t : API) (ht : w.template = .ok t) :
    (∀ e ∈ (createAPI w tr name ns configMapName replicas timestamp balInterceptors override
        javaInterceptors).added tr, ∀ m, e.manifest = some m →
      m = { Name := name
            Namespace := ns
            Spec :=
              { Definition :=
                  { SwaggerConfigmapName := configMapName
                    Interceptors :=
                      { Ballerina :=
                          if balInterceptors = "" then t.Spec.Definition.Interceptors.Ballerina
                          else balInterceptors
                        Java := .mk javaInterceptors.toList }
                    rest := t.Spec.Definition.rest }
                Replicas := replicas
                Override := override
                UpdateTimeStamp := if timestamp = "" then t.Spec.UpdateTimeStamp else timestamp
                rest := t.Spec.rest }
            rest := t.rest }) ∧
    (∀ tmp, w.yamlMarshal (createAPI_assign t name ns configMapName replicas timestamp
        balInterceptors override javaInterceptors) = none → w.tempFile tr = .ok tmp →
      ∃ m err, Event.write tmp m err ∈ (createAPI w tr name ns configMapName replicas timestamp
        balInterceptors override javaInterceptors).added tr) := by
  have hM : createAPI_assign t name ns configMapName replicas timestamp balInterceptors override
      javaInterceptors =
      { Name := name
        Namespace := ns
        Spec :=
          { Definition :=
              { SwaggerConfigmapName := configMapName
                Interceptors :=
                  { Ballerina :=
                      if balInterceptors = "" then t.Spec.Definition.Interceptors.Ballerina
                      else balInterceptors
                    Java := .mk javaInterceptors.toList }
                rest := t.Spec.Definition.rest }
            Replicas := replicas
            Override := override
            UpdateTimeStamp := if timestamp = "" then t.Spec.UpdateTimeStamp else timestamp
            rest := t.Spec.rest }
        rest := t.rest } := by
    have hj := createAPI_assign_Java t name ns configMapName replicas timestamp balInterceptors
      override javaInterceptors
    simp only [createAPI_assign] at hj ⊢
    rw [hj]
    by_cases h1 : balInterceptors = "" <;> by_cases h2 : timestamp = "" <;> simp [h1, h2]
  obtain ⟨l, hl, -, hm⟩ := createAPI_spec w tr name ns configMapName replicas timestamp
    balInterceptors override javaInterceptors
  refine ⟨?_, ?_⟩
  · intro e he m hem
    rw [added_of_trace _ tr l hl] at he
    obtain ⟨t1, ht1, hm1⟩ := hm e he m hem
    rw [ht] at ht1
    cases ht1
    rw [hm1, hM]
  · intro tmp hmar htmp
    rcases createAPI_cases w tr name ns configMapName replicas timestamp balInterceptors override
      javaInterceptors with ⟨e1, h0, -⟩ | ⟨t1, ht1, ⟨e1, h0, -⟩ | ⟨e1, h0, -⟩ |
        ⟨tmp1, -, htmp1, ⟨e1, h1⟩ | ⟨e1, h1⟩ | ⟨e1, h1⟩ | h1⟩⟩
    · rw [ht] at h0; cases h0
    · rw [ht] at ht1; cases ht1
      rw [hmar] at h0; cases h0
    · rw [htmp] at h0; cases h0
    all_goals
      rw [htmp] at htmp1
      cases htmp1
      rw [h1]
      refine ⟨createAPI_assign t1 name ns configMapName replicas timestamp balInterceptors
        override javaInterceptors, ?_⟩
      simp [Res.added]

/-- C8 at `exWorld`: the manifest of a call with an interceptor reference and no libraries. -/
theorem C8_createAPI_manifest_frame_witness :
    exWorld.template = .ok exTemplate ∧
    (∀ e ∈ (createAPI exWorld [] "petstore" "wso2" "petstore-swagger" 3 "" "petstore-interceptors"
        true .nil).added [], ∀ m, e.manifest = some m →
      m = { Name := "petstore"
            Namespace := "wso2"
            Spec :=
              { Definition :=
                  { SwaggerConfigmapName := "petstore-swagger"
                    Interceptors :=
                      { Ballerina :=
                          if "petstore-interceptors" = ""
                          then exTemplate.Spec.Definition.Interceptors.Ballerina
                          else "petstore-interceptors"
                        Java := .mk GoSlice.nil.toList }
                    rest := exTemplate.Spec.Definition.rest }
                Replicas := 3
                Override := true
                UpdateTimeStamp := if "" = "" then exTemplate.Spec.UpdateTimeStamp else ""
                rest := exTemplate.Spec.rest }
            rest := exTemplate.rest }) :=
  ⟨rfl, (C8_createAPI_manifest_frame exWorld [] "petstore" "wso2" "petstore-swagger" 3 ""
    "petstore-interceptors" true .nil exTemplate rfl).1⟩

/-- C9 (the code breaks it): when writing the temporary manifest file fails, `createAPI` stops
in `log.Fatal`, which exits the process without running the deferred `os.Remove`: the
temporary file has been created and is never removed. -/
theorem C9_write_failure_leaves_temp_file :
    Event.tempFile "/tmp/apicr-1.yaml" ∈
      (createAPI exWorldWriteFails [] "petstore" "wso2" "petstore-swagger" 3 "" "" false
        .nil).trace ∧
    Event.remove "/tmp/apicr-1.yaml" ∉
      (createAPI exWorldWriteFails [] "petstore" "wso2" "petstore-swagger" 3 "" "" false
        .nil).trace ∧
    (createAPI exWorldWriteFails [] "petstore" "wso2" "petstore-swagger" 3 "" "" false
      .nil).out = .exit 1 ∧
    Event.tempFile "/tmp/apicr-1.yaml" ∈ (addApiCmd_Run exWorldWriteFails exFlags).trace ∧
    Event.remove "/tmp/apicr-1.yaml" ∉ (addApiCmd_Run exWorldWriteFails exFlags).trace :=
  ⟨by decide, by decide, by decide, by decide, by decide⟩

/-- C10 as stated fails: with a failing `kubectl apply` the run ends exactly as the run whose
apply succeeded, by a normal return. -/
theorem C10_apply_failure_counterexample :
    Event.apply "/tmp/apicr-1.yaml"
      (createAPI_assign exTemplate "petstore" "wso2" "petstore-swagger" 3 "" "" false
        (.mk ["petstore-a.jar", "petstore-b.jar"])) "wso2" (some "exit status 1") ∈
      (addApiCmd_Run exWorldApplyFails exFlags).trace ∧
    Event.apply "/tmp/apicr-1.yaml"
      (createAPI_assign exTemplate "petstore" "wso2" "petstore-swagger" 3 "" "" false
        (.mk ["petstore-a.jar", "petstore-b.jar"])) "wso2" none ∈
      (addApiCmd_Run exWorld exFlags).trace ∧
    (addApiCmd_Run exWorldApplyFails exFlags).out = .ret () ∧
    (addApiCmd_Run exWorld exFlags).out = .ret () :=
  ⟨by decide, by decide, by decide, by decide⟩

/-- C10, amended: in every run in which the final apply command fails with error `e`,
`createAPI` prints `e`, removes the temporary file and returns; the run then returns normally,
as a run whose apply succeeded does, and the failure shows only in the printed line. -/
theorem C10_apply_failure_is_printed (w : World) (f : Flags) (file : String) (m : API)
    (ns : String) (e : Err)
    (h : Event.apply file m ns (some e) ∈ (addApiCmd_Run w f).trace) :
    (addApiCmd_Run w f).out = .ret () ∧
    ∃ pre, (addApiCmd_Run w f).trace =
      pre ++ [.apply file m ns (some e), .println e, .remove file] := by
  rcases addApiCmd_Run_skeleton w f with hnone | ⟨tr, bal, s, htr, hrun⟩
  · have := hnone _ h
    simp [Event.manifest] at this
  · rw [hrun] at h ⊢
    obtain ⟨l, hl, -, -⟩ := createAPI_spec w tr f.flagApiName f.flagNamespace
      (f.flagApiName ++ "-swagger") f.flagReplicas "" bal f.flagOverride s
    have hmem : Event.apply file m ns (some e) ∈ (createAPI w tr f.flagApiName f.flagNamespace
        (f.flagApiName ++ "-swagger") f.flagReplicas "" bal f.flagOverride s).added tr := by
      rw [added_of_trace _ tr l hl]
      rw [hl, List.mem_append] at h
      rcases h with h | h
      · have := htr _ h
        simp [Event.manifest] at this
      · exact h
    exact createAPI_apply_failed w tr _ _ _ _ _ _ _ _ file m ns e hmem

/-- C10 (amended) at `exWorldApplyFails`. -/
theorem C10_apply_failure_is_printed_witness :
    Event.apply "/tmp/apicr-1.yaml"
      (createAPI_assign exTemplate "petstore" "wso2" "petstore-swagger" 3 "" "" false
        (.mk ["petstore-a.jar", "petstore-b.jar"])) "wso2" (some "exit status 1") ∈
      (addApiCmd_Run exWorldApplyFails exFlags).trace ∧
    (addApiCmd_Run exWorldApplyFails exFlags).out = .ret () :=
  ⟨by decide,
    (C10_apply_failure_is_printed exWorldApplyFails exFlags "/tmp/apicr-1.yaml"
      (createAPI_assign exTemplate "petstore" "wso2" "petstore-swagger" 3 "" "" false
        (.mk ["petstore-a.jar", "petstore-b.jar"])) "wso2" "exit status 1" (by decide)).1⟩

/-! ## The merge engine -/

theorem JObj.lookup_erase (key k : String) (o : JObj) :
    (o.erase k).lookup key = if k = key then none else o.lookup key := by
  match o with
  | .nil => simp [JObj.erase, JObj.lookup]
  | .cons k1 v tl =>
    have ih := JObj.lookup_erase key k tl
    by_cases h2 : k = key
    · subst h2
      simp only [if_true] at ih ⊢
      by_cases h1 : k1 = k
      · simp [JObj.erase, h1, ih]
      · simp [JObj.erase, JObj.lookup, h1, ih]
    · simp only [h2, if_false] at ih ⊢
      by_cases h1 : k1 = k
      · subst h1
        simp [JObj.erase, JObj.lookup, h2, ih]
      · by_cases h3 : k1 = key
        · subst h3
          simp [JObj.erase, JObj.lookup, h1]
        · simp [JObj.erase, JObj.lookup, h1, h3, ih]

theorem JObj.lookup_eraseAll (key : String) (keys : List String) :
    ∀ o : JObj, (JObj.eraseAll keys o).lookup key = if key ∈ keys then none else o.lookup key := by
  induction keys with
  | nil => intro o; simp [JObj.eraseAll]
  | cons k ks ih =>
    intro o
    rw [JObj.eraseAll, ih, JObj.lookup_erase]
    by_cases h1 : key ∈ ks
    · simp [h1]
    · by_cases h2 : k = key
      · simp [h2]
      · have h3 : ¬ key = k := fun h => h2 h.symm
        simp [h1, h2, h3]

/-- Lookup in a merged object: a key of both sides holds the merge of the two values, a key of
one side that side's value. -/
theorem JObj.lookup_merge (key : String) (a b : JObj) :
    (JObj.merge a b).lookup key =
      match a.lookup key, b.lookup key with
      | some v, some w => some (Json.merge v w)
      | some v, none => some v
      | none, r => r := by
  match a with
  | .nil => simp [JObj.merge, JObj.lookup]
  | .cons k v tl =>
    have ih1 := JObj.lookup_merge key tl b
    have ih2 := JObj.lookup_merge key tl (b.erase k)
    by_cases hk : k = key
    · subst hk
      cases hb : b.lookup k with
      | none => simp [JObj.merge, JObj.lookup, hb]
      | some w => simp [JObj.merge, JObj.lookup, hb]
    · cases hb : b.lookup k with
      | none => simp [JObj.merge, JObj.lookup, hb, hk, ih1]
      | some w => simp [JObj.merge, JObj.lookup, hb, hk, ih2, JObj.lookup_erase]

theorem lookup_stringMember (key k value : String) (tl : JObj) :
    (stringMember k value tl).lookup key =
      if k = key ∧ value ≠ "" then some (.str value) else tl.lookup key := by
  by_cases h1 : value = "" <;> by_cases h2 : k = key <;> simp [stringMember, JObj.lookup, h1, h2]

/-! ## The JSON form of a definition -/

/-- The status and URL members of a marshalled definition: present exactly when set. -/
theorem json_Marshal_lookup (d : APIDefinition) :
    ∃ o, json_Marshal d = .obj o ∧
      o.lookup "status" = (if d.Status = "" then none else some (.str d.Status)) ∧
      o.lookup "productionUrl" =
        (if d.ProductionUrl = "" then none else some (.str d.ProductionUrl)) ∧
      o.lookup "sandboxUrl" = (if d.SandboxUrl = "" then none else some (.str d.SandboxUrl)) ∧
      o.lookup "endpointConfig" = d.EndpointConfig := by
  refine ⟨_, rfl, ?_, ?_, ?_, ?_⟩
  all_goals
    cases d.EndpointConfig <;>
    simp [lookup_stringMember, JObj.lookup, JObj.lookup_eraseAll, definitionKeys]

theorem stringField_merge (oa ob : JObj) (key x y : String)
    (ha : oa.lookup key = if x = "" then none else some (.str x))
    (hb : ob.lookup key = if y = "" then none else some (.str y)) :
    stringField (JObj.merge oa ob) key = .ok (if y = "" then x else y) := by
  by_cases hx : x = "" <;> by_cases hy : y = "" <;>
    simp [stringField, JObj.lookup_merge, ha, hb, hx, hy, Json.merge]

/-- The status and URL fields of a definition merged with an override: the override's value
when it sets one, the original value otherwise. -/
theorem merged_definition_fields (a b d : APIDefinition)
    (h : json_Unmarshal (Json.merge (json_Marshal a) (json_Marshal b)) = .ok d) :
    d.Status = (if b.Status = "" then a.Status else b.Status) ∧
    d.ProductionUrl = (if b.ProductionUrl = "" then a.ProductionUrl else b.ProductionUrl) ∧
    d.SandboxUrl = (if b.SandboxUrl = "" then a.SandboxUrl else b.SandboxUrl) := by
  obtain ⟨oa, hoa, ha1, ha2, ha3, -⟩ := json_Marshal_lookup a
  obtain ⟨ob, hob, hb1, hb2, hb3, -⟩ := json_Marshal_lookup b
  rw [hoa, hob, Json.merge] at h
  have h1 := stringField_merge oa ob "status" a.Status b.Status ha1 hb1
  have h2 := stringField_merge oa ob "productionUrl" a.ProductionUrl b.ProductionUrl ha2 hb2
  have h3 := stringField_merge oa ob "sandboxUrl" a.SandboxUrl b.SandboxUrl ha3 hb3
  simp only [json_Unmarshal, h1, h2, h3] at h
  cases hn : stringField (JObj.merge oa ob) "name" with
  | error e => simp [hn] at h
  | ok name =>
    cases hc : stringField (JObj.merge oa ob) "context" with
    | error e => simp [hn, hc] at h
    | ok context =>
      cases hv : stringField (JObj.merge oa ob) "version" with
      | error e => simp [hn, hc, hv] at h
      | ok version =>
        simp only [hn, hc, hv, Except.ok.injEq] at h
        subst h
        exact ⟨rfl, rfl, rfl⟩

/-! ## `executeInitCmd` -/

theorem definitionsWritten_append (a b : List InitEvent) :
    definitionsWritten (a ++ b) = definitionsWritten a ++ definitionsWritten b := by
  induction a with
  | nil => rfl
  | cons e a ih =>
    cases e with
    | writeFile p data err => cases data <;> simp [definitionsWritten, ih]
    | _ => simp [definitionsWritten, ih]

theorem createDirectories_loop_written (w : InitWorld) (name : String) (ds : List String) :
    ∀ tr, definitionsWritten (createDirectories_loop w name ds tr).2 = definitionsWritten tr := by
  induction ds with
  | nil => intro tr; rfl
  | cons dir rest ih =>
    intro tr
    cases hm : w.MkdirAll (w.Join name (filepath_FromSlash dir)) with
    | some e => simp [createDirectories_loop, hm, definitionsWritten_append, definitionsWritten]
    | none =>
      simp only [createDirectories_loop, hm]
      rw [ih]
      simp [definitionsWritten_append, definitionsWritten]

/-- The OpenAPI block writes no definition; when it succeeds, it leaves the definition alone
(no OpenAPI source) or leaves the populated definition, its URLs cleared when it has an
  endpoint-config. -/
theorem executeInitCmd_swagger_spec (w : InitWorld) (f : InitFlags) (swaggerSavePath : String)
    (defn : APIDefinition) (tr : List InitEvent) :
    definitionsWritten (executeInitCmd_swagger w f swaggerSavePath defn tr).2 =
      definitionsWritten tr ∧
    ∀ d1, (executeInitCmd_swagger w f swaggerSavePath defn tr).1 = .ok d1 →
      (f.initCmdSwaggerPath = "" ∧ d1 = defn) ∨
      (f.initCmdSwaggerPath ≠ "" ∧ ∃ doc p, w.loads_Spec f.initCmdSwaggerPath = .ok doc ∧
        w.Swagger2Populate defn doc = .ok p ∧
        d1 = if p.EndpointConfig.isSome then { p with ProductionUrl := "", SandboxUrl := "" }
          else p) := by
  by_cases hsw : f.initCmdSwaggerPath = ""
  · cases hw : w.WriteFile swaggerSavePath <;>
      simp [executeInitCmd_swagger, hsw, hw, definitionsWritten_append, definitionsWritten]
  · cases hl : w.loads_Spec f.initCmdSwaggerPath with
    | error e => simp [executeInitCmd_swagger, hsw, hl]
    | ok doc =>
      cases hpop : w.Swagger2Populate defn doc with
      | error e => simp [executeInitCmd_swagger, hsw, hl, hpop]
      | ok p =>
        cases hy : w.JsonToYaml doc with
        | error e => simp [executeInitCmd_swagger, hsw, hl, hpop, hy]
        | ok y =>
          cases hw : w.WriteFile swaggerSavePath with
          | some e =>
            simp [executeInitCmd_swagger, hsw, hl, hpop, hy, hw, definitionsWritten_append,
              definitionsWritten]
          | none =>
            simp only [executeInitCmd_swagger, hsw, hl, hpop, hy, hw, definitionsWritten_append,
              definitionsWritten, List.append_nil, ne_eq, not_false_eq_true, if_true, true_and,
              Except.ok.injEq, false_and, false_or, true_and]
            intro d1 hd1
            exact ⟨doc, p, rfl, hpop, hd1.symm⟩

/-- The override block, when it succeeds, leaves the definition alone (no override document)
or leaves the merge of the definition with the parsed override. -/
theorem executeInitCmd_definition_spec (w : InitWorld) (f : InitFlags) (d1 d : APIDefinition)
    (h : executeInitCmd_definition w f d1 = .ok d) :
    (f.initCmdApiDefinitionPath = "" ∧ d = d1) ∨
    (f.initCmdApiDefinitionPath ≠ "" ∧ ∃ content data apiDef,
      w.ReadFile f.initCmdApiDefinitionPath = .ok content ∧ w.EnvSubstitute content = .ok data ∧
      w.yaml2_Unmarshal data = .ok apiDef ∧
      json_Unmarshal (Json.merge (json_Marshal d1) (json_Marshal apiDef)) = .ok d) := by
  by_cases hp : f.initCmdApiDefinitionPath = ""
  · left
    simp [executeInitCmd_definition, hp] at h
    exact ⟨hp, h.symm⟩
  · right
    refine ⟨hp, ?_⟩
    cases hr : w.ReadFile f.initCmdApiDefinitionPath with
    | error e => simp [executeInitCmd_definition, hp, hr] at h
    | ok content =>
      cases he : w.EnvSubstitute content with
      | error e => simp [executeInitCmd_definition, hp, hr, he] at h
      | ok data =>
        cases hu : w.yaml2_Unmarshal data with
        | error e => simp [executeInitCmd_definition, hp, hr, he, hu] at h
        | ok apiDef =>
          refine ⟨content, data, apiDef, rfl, he, hu, ?_⟩
          simp only [executeInitCmd_definition, hp, hr, he, hu, MergeJSON, ne_eq,
            not_false_eq_true, if_true] at h
          cases hj : json_Unmarshal (Json.merge (json_Marshal d1) (json_Marshal apiDef)) with
          | error e => simp [hj] at h
          | ok d2 =>
            simp [hj] at h
            rw [h]

theorem executeInitCmd_write_written (w : InitWorld) (f : InitFlags) (defn : APIDefinition)
    (tr : List InitEvent) :
    ∀ d ∈ definitionsWritten (executeInitCmd_write w f defn tr).trace,
      d ∈ definitionsWritten tr ∨ d = defn := by
  intro d hd
  unfold executeInitCmd_write at hd
  split at hd
  · exact Or.inl hd
  · simp only [] at hd
    split at hd
    · simp [definitionsWritten_append, definitionsWritten] at hd
      exact hd
    · split at hd
      · simp [definitionsWritten_append, definitionsWritten] at hd
        exact hd
      · split at hd
        · simp [definitionsWritten_append, definitionsWritten] at hd
          exact hd
        · simp [definitionsWritten_append, definitionsWritten] at hd
          exact hd

theorem executeInitCmd_dir_written (w : InitWorld) (f : InitFlags) (tr : List InitEvent) :
    definitionsWritten (executeInitCmd_dir w f tr).2 = definitionsWritten tr := by
  unfold executeInitCmd_dir
  split
  · simp only []
    split
    · simp [definitionsWritten_append, definitionsWritten]
    · split <;> simp [definitionsWritten_append, definitionsWritten]
  · split <;> rfl

/-- Every definition the resolver writes went through the pipeline: the default definition
with the requested initial state set, then the OpenAPI block, then the override block. -/
theorem executeInitCmd_resolve_written (w : InitWorld) (f : InitFlags) (swaggerSavePath : String)
    (tr : List InitEvent) (htr : definitionsWritten tr = []) (d : APIDefinition)
    (hd : d ∈ definitionsWritten (executeInitCmd_resolve w f swaggerSavePath tr).trace) :
    ∃ def0 tr1 d1, loadDefaultSpecFromDisk w = .ok def0 ∧
      (executeInitCmd_swagger w f swaggerSavePath
        (if f.initCmdInitialState ≠ "" then { def0 with Status := f.initCmdInitialState }
          else def0) tr1).1 = .ok d1 ∧
      executeInitCmd_definition w f d1 = .ok d := by
  unfold executeInitCmd_resolve at hd
  cases hl : loadDefaultSpecFromDisk w with
  | error e => simp [hl, htr] at hd
  | ok def0 =>
    rw [hl] at hd
    dsimp only at hd
    refine ⟨def0, ?_⟩
    generalize (if f.initCmdInitialState ≠ "" then
      { def0 with Status := f.initCmdInitialState } else def0) = defn0 at hd ⊢
    have hcd := createDirectories_loop_written w f.initCmdOutputDir dirs tr
    cases hc : createDirectories w f.initCmdOutputDir tr with
    | mk cerr tr1 =>
      have hcd1 : definitionsWritten tr1 = [] := by
        have : (createDirectories w f.initCmdOutputDir tr).2 = tr1 := by rw [hc]
        rw [← this]
        exact hcd.trans htr
      cases cerr with
      | some e => simp [hc, hcd1] at hd
      | none =>
        simp only [hc] at hd
        obtain ⟨hsw1, -⟩ := executeInitCmd_swagger_spec w f swaggerSavePath defn0 tr1
        cases hs : executeInitCmd_swagger w f swaggerSavePath defn0 tr1 with
        | mk sres tr2 =>
          have hsw2 : definitionsWritten tr2 = [] := by
            rw [hs] at hsw1
            exact hsw1.trans hcd1
          cases sres with
          | error e => simp [hs, hsw2] at hd
          | ok d1 =>
            simp only [hs] at hd
            cases hdef : executeInitCmd_definition w f d1 with
            | error e => simp [hdef, hsw2] at hd
            | ok d2 =>
              simp only [hdef] at hd
              rcases executeInitCmd_write_written w f d2 tr2 d hd with h | h
              · rw [hsw2] at h
                cases h
              · subst h
                exact ⟨tr1, d1, rfl, by rw [hs], hdef⟩

theorem executeInitCmd_written (w : InitWorld) (f : InitFlags) (d : APIDefinition)
    (hd : d ∈ definitionsWritten (executeInitCmd w f).trace) :
    ∃ def0 tr1 d1, loadDefaultSpecFromDisk w = .ok def0 ∧
      (executeInitCmd_swagger w f
        (w.Join f.initCmdOutputDir (filepath_FromSlash "Meta-information/swagger.yaml"))
        (if f.initCmdInitialState ≠ "" then { def0 with Status := f.initCmdInitialState }
          else def0) tr1).1 = .ok d1 ∧
      executeInitCmd_definition w f d1 = .ok d := by
  unfold executeInitCmd at hd
  have hdir := executeInitCmd_dir_written w f []
  cases hr : executeInitCmd_dir w f [] with
  | mk res tr =>
    rw [hr] at hdir
    simp only [definitionsWritten] at hdir
    cases res with
    | error e => simp [hr, hdir] at hd
    | ok dir =>
      simp only [hr] at hd
      exact executeInitCmd_resolve_written w f _ _
        (by simp [definitionsWritten_append, hdir, definitionsWritten]) d hd

/-! ## Claims on the definition resolver -/

/-- C6 as stated fails: at `exInitWorld` the OpenAPI document yields an endpoint-config
object, an override document that sets a production URL is merged afterwards, and the
definition that is written has the endpoint-config and a non-empty production URL. -/
theorem C6_override_sets_url_counterexample :
    (∃ doc p, exInitWorld.loads_Spec exInitFlagsOverride.initCmdSwaggerPath = .ok doc ∧
      exInitWorld.Swagger2Populate exBaseline doc = .ok p ∧ p.EndpointConfig.isSome = true) ∧
    loadDefaultSpecFromDisk exInitWorld = .ok exBaseline ∧
    (definitionsWritten (executeInitCmd exInitWorld exInitFlagsOverride).trace).map
      (fun d => (d.EndpointConfig.isSome, d.ProductionUrl, d.SandboxUrl)) =
      [(true, "https://prod.example.com", "")] :=
  ⟨⟨_, _, rfl, rfl, rfl⟩, rfl, by decide⟩

/-- C6, amended: for every run of `executeInitCmd` in which the ingested OpenAPI document
yields an endpoint-config object, the definition that is serialized has both URL fields empty
when no override document is merged; when one is merged, its URL fields are those of the
override document (so they are empty exactly when the override sets neither). -/
theorem C6_endpoint_config_clears_urls (w : InitWorld) (f : InitFlags) (d : APIDefinition)
    (hsw : f.initCmdSwaggerPath ≠ "")
    (hyield : ∃ def0 doc p, loadDefaultSpecFromDisk w = .ok def0 ∧
      w.loads_Spec f.initCmdSwaggerPath = .ok doc ∧
      w.Swagger2Populate
        (if f.initCmdInitialState ≠ "" then { def0 with Status := f.initCmdInitialState }
          else def0) doc = .ok p ∧
      p.EndpointConfig.isSome = true)
    (hd : d ∈ definitionsWritten (executeInitCmd w f).trace) :
    (f.initCmdApiDefinitionPath = "" → d.ProductionUrl = "" ∧ d.SandboxUrl = "") ∧
    (f.initCmdApiDefinitionPath ≠ "" →
      ∃ content data apiDef, w.ReadFile f.initCmdApiDefinitionPath = .ok content ∧
        w.EnvSubstitute content = .ok data ∧ w.yaml2_Unmarshal data = .ok apiDef ∧
        d.ProductionUrl = apiDef.ProductionUrl ∧ d.SandboxUrl = apiDef.SandboxUrl) := by
  obtain ⟨def0, tr1, d1, hl, hs1, hdef⟩ := executeInitCmd_written w f d hd
  obtain ⟨def0', doc, p, hl', hdoc, hpop, hcfg⟩ := hyield
  rw [hl] at hl'
  cases hl'
  have hd1 : d1.ProductionUrl = "" ∧ d1.SandboxUrl = "" := by
    rcases (executeInitCmd_swagger_spec w f _ _ tr1).2 d1 hs1 with ⟨h, -⟩ | ⟨-, doc1, p1, h1, h2, h3⟩
    · exact absurd h hsw
    · rw [hdoc] at h1
      cases h1
      rw [hpop] at h2
      cases h2
      rw [h3, hcfg]
      exact ⟨rfl, rfl⟩
  rcases executeInitCmd_definition_spec w f d1 d hdef with ⟨hp, h⟩ | ⟨hp, content, data, apiDef, h1, h2, h3, h4⟩
  · refine ⟨fun _ => ?_, fun h0 => absurd hp h0⟩
    rw [h]
    exact hd1
  · refine ⟨fun h0 => absurd h0 hp, fun _ => ⟨content, data, apiDef, h1, h2, h3, ?_⟩⟩
    obtain ⟨-, hu1, hu2⟩ := merged_definition_fields d1 apiDef d h4
    rw [hu1, hu2, hd1.1, hd1.2]
    constructor
    · by_cases h : apiDef.ProductionUrl = ""
      · simp [h]
      · simp [h]
    · by_cases h : apiDef.SandboxUrl = ""
      · simp [h]
      · simp [h]

/-- C6 (amended) at `exInitWorld`, without an override document. -/
theorem C6_endpoint_config_clears_urls_witness :
    exInitFlags.initCmdSwaggerPath ≠ "" ∧
    (∃ d, d ∈ definitionsWritten (executeInitCmd exInitWorld exInitFlags).trace ∧
      d.EndpointConfig.isSome = true ∧ d.ProductionUrl = "" ∧ d.SandboxUrl = "") :=
  ⟨by decide,
    { exBaseline with
      Name := "Petstore", Context := "/v1", Version := "1.0.0",
      EndpointConfig := some (.obj (.cons "endpoint_type" (.str "load_balance") .nil)) },
    List.mem_singleton.2 rfl, rfl,
    (C6_endpoint_config_clears_urls exInitWorld exInitFlags _ (by decide)
      ⟨exBaseline, _, _, rfl, rfl, rfl, rfl⟩ (List.mem_singleton.2 rfl)).1 rfl⟩

/-- C7 as stated fails: at `exInitWorld` the caller requests the valid initial state
`PUBLISHED`, the override document carries the status `CREATED`, and the definition that is
written has status `CREATED`. -/
theorem C7_override_status_wins_counterexample :
    exInitFlagsState.initCmdInitialState = "PUBLISHED" ∧
    "PUBLISHED" ∈ exInitWorld.ValidInitialStates ∧
    (definitionsWritten (executeInitCmd exInitWorld exInitFlagsState).trace).map
      (fun d => d.Status) = ["CREATED"] :=
  ⟨rfl, by decide, by decide⟩

/-- C7, amended: for every run in which the caller requested an explicit initial status `s`,
`s` is set first, on the baseline definition, before OpenAPI ingestion and override
ingestion.  Provided OpenAPI population leaves the status unchanged, the definition that is
serialized has status `s` when no override document is merged, and when one is merged it has
the override's status if that is set and `s` otherwise. -/
theorem C7_initial_status_is_set_first (w : InitWorld) (f : InitFlags) (d : APIDefinition)
    (hs : f.initCmdInitialState ≠ "")
    (hkeep : ∀ def0 doc p, w.Swagger2Populate def0 doc = .ok p → p.Status = def0.Status)
    (hd : d ∈ definitionsWritten (executeInitCmd w f).trace) :
    (f.initCmdApiDefinitionPath = "" → d.Status = f.initCmdInitialState) ∧
    (f.initCmdApiDefinitionPath ≠ "" →
      ∃ content data apiDef, w.ReadFile f.initCmdApiDefinitionPath = .ok content ∧
        w.EnvSubstitute content = .ok data ∧ w.yaml2_Unmarshal data = .ok apiDef ∧
        d.Status = if apiDef.Status = "" then f.initCmdInitialState else apiDef.Status) := by
  obtain ⟨def0, tr1, d1, hl, hs1, hdef⟩ := executeInitCmd_written w f d hd
  have hd1 : d1.Status = f.initCmdInitialState := by
    rcases (executeInitCmd_swagger_spec w f _ _ tr1).2 d1 hs1 with ⟨-, h⟩ | ⟨-, doc1, p1, -, h2, h3⟩
    · rw [h]
      simp [hs]
    · have hp := hkeep _ _ _ h2
      simp only [hs, ne_eq, not_false_eq_true, if_true] at hp
      rw [h3]
      by_cases hc : p1.EndpointConfig.isSome = true
      · simp [hc, hp]
      · simp [hc, hp]
  rcases executeInitCmd_definition_spec w f d1 d hdef with ⟨hp, h⟩ | ⟨hp, content, data, apiDef, h1, h2, h3, h4⟩
  · refine ⟨fun _ => ?_, fun h0 => absurd hp h0⟩
    rw [h]
    exact hd1
  · refine ⟨fun h0 => absurd h0 hp, fun _ => ⟨content, data, apiDef, h1, h2, h3, ?_⟩⟩
    obtain ⟨hu, -, -⟩ := merged_definition_fields d1 apiDef d h4
    rw [hu, hd1]

/-- C7 (amended) at `exInitWorld`, with an OpenAPI document and no override document. -/
theorem C7_initial_status_is_set_first_witness :
    exInitFlagsStateOnly.initCmdInitialState ≠ "" ∧
    (∀ def0 doc p, exInitWorld.Swagger2Populate def0 doc = .ok p → p.Status = def0.Status) ∧
    (∃ d, d ∈ definitionsWritten (executeInitCmd exInitWorld exInitFlagsStateOnly).trace ∧
      d.Status = "PUBLISHED") :=
  ⟨by decide, fun _ _ _ h => by cases h; rfl,
    { exBaseline with
      Name := "Petstore", Context := "/v1", Version := "1.0.0", Status := "PUBLISHED",
      EndpointConfig := some (.obj (.cons "endpoint_type" (.str "load_balance") .nil)) },
    List.mem_singleton.2 rfl,
    (C7_initial_status_is_set_first exInitWorld exInitFlagsStateOnly _ (by decide)
      (fun _ _ _ h => by cases h; rfl) (List.mem_singleton.2 rfl)).1 rfl⟩

/-! ## The cause handed to the error reporter -/

theorem reportedCauses_append (a b : List Event) :
    reportedCauses (a ++ b) = reportedCauses a ++ reportedCauses b := by
  induction a with
  | nil => rfl
  | cons e a ih => cases e <;> simp [reportedCauses, ih]

/-- The library loop hands a cause to the reporter exactly when it exits, and that cause is
the variable `err` it was given, not the error of the create. -/
theorem handleJavaInterceptors_loop_causes (w : World) (operation ns flagApiName : String)
    (err : Option Err) (paths : List String) :
    ∀ (acc : GoSlice) (tr : List Event),
      (∀ s, (handleJavaInterceptors_loop w operation ns flagApiName err paths acc tr).out = .ret s →
        reportedCauses (handleJavaInterceptors_loop w operation ns flagApiName err paths acc
          tr).trace = reportedCauses tr) ∧
      (∀ c, (handleJavaInterceptors_loop w operation ns flagApiName err paths acc tr).out = .exit c →
        reportedCauses (handleJavaInterceptors_loop w operation ns flagApiName err paths acc
          tr).trace = reportedCauses tr ++ [err]) := by
  induction paths with
  | nil =>
    intro acc tr
    simp [handleJavaInterceptors_loop]
  | cons p rest ih =>
    intro acc tr
    by_cases hp : filepath_Ext p = ".jar"
    · cases hk : w.kubectlConfigmap
          (tr ++ [.println ("creating configmap with java interceptor " ++ libraryName flagApiName p)])
          operation (libraryName flagApiName p) p ns with
      | some e =>
        rw [loop_failed w operation ns flagApiName err p rest acc tr e hp hk]
        simp [reportedCauses_append, reportedCauses]
      | none =>
        rw [loop_created w operation ns flagApiName err p rest acc tr hp hk]
        obtain ⟨h1, h2⟩ := ih (acc.append (libraryName flagApiName p))
          (tr ++ [.println ("creating configmap with java interceptor " ++ libraryName flagApiName p),
            .configmap operation (libraryName flagApiName p) p ns none])
        refine ⟨fun s hs => ?_, fun c hc => ?_⟩
        · rw [h1 s hs]
          simp [reportedCauses_append, reportedCauses]
        · rw [h2 c hc]
          simp [reportedCauses_append, reportedCauses]
    · rw [loop_skip w operation ns flagApiName err p rest acc tr hp]
      exact ih acc tr

/-- The cause `handleJavaInterceptors` hands to the reporter: nil after a failed create, the
open error only when the `libs` directory cannot be opened (and then no create was issued). -/
theorem handleJavaInterceptors_causes (w : World) (tr : List Event)
    (path operation ns flagApiName : String) :
    (∀ s, (handleJavaInterceptors w tr path operation ns flagApiName).out = .ret s →
      reportedCauses (handleJavaInterceptors w tr path operation ns flagApiName).trace =
        reportedCauses tr) ∧
    (∀ c, (handleJavaInterceptors w tr path operation ns flagApiName).out = .exit c →
      reportedCauses (handleJavaInterceptors w tr path operation ns flagApiName).trace =
        reportedCauses tr ++ [none] ∨
      configmapCalls (handleJavaInterceptors w tr path operation ns flagApiName).trace =
        configmapCalls tr) := by
  cases ho : w.osOpen (w.Join path (filepath_FromSlash "libs")) with
  | some e =>
    simp [handleJavaInterceptors, ho, HandleErrorAndExit, configmapCalls_append, configmapCalls]
  | none =>
    obtain ⟨h1, h2⟩ := handleJavaInterceptors_loop_causes w operation ns flagApiName none
      (w.walk (w.Join path (filepath_FromSlash "libs"))) .nil tr
    simp only [handleJavaInterceptors, ho]
    exact ⟨h1, fun c hc => Or.inl (h2 c hc)⟩

/-- The cause `handleBalInterceptors` hands to the reporter: nil after a failed create, the
open error only when the `Interceptors` directory cannot be opened (and then no create was
issued). -/
theorem handleBalInterceptors_causes (w : World) (tr : List Event)
    (configMapName path operation ns : String) :
    (∀ s, (handleBalInterceptors w tr configMapName path operation ns).out = .ret s →
      reportedCauses (handleBalInterceptors w tr configMapName path operation ns).trace =
        reportedCauses tr) ∧
    (∀ c, (handleBalInterceptors w tr configMapName path operation ns).out = .exit c →
      reportedCauses (handleBalInterceptors w tr configMapName path operation ns).trace =
        reportedCauses tr ++ [none] ∨
      configmapCalls (handleBalInterceptors w tr configMapName path operation ns).trace =
        configmapCalls tr) := by
  cases ho : w.osOpen (w.Join path (filepath_FromSlash "Interceptors")) with
  | some e =>
    simp [handleBalInterceptors, ho, HandleErrorAndExit, configmapCalls_append, configmapCalls]
  | none =>
    cases hr : w.readdir1 (w.Join path (filepath_FromSlash "Interceptors")) with
    | some e => simp [handleBalInterceptors, ho, hr]
    | none =>
      cases hk : w.kubectlConfigmap
          (tr ++ [.println "creating configmap with ballerina interceptors"]) operation
          configMapName (w.Join path (filepath_FromSlash "Interceptors")) ns with
      | some e =>
        simp [handleBalInterceptors, ho, hr, createConfigMapWithNamespace, hk,
          HandleErrorAndExit, reportedCauses_append, reportedCauses]
      | none =>
        simp [handleBalInterceptors, ho, hr, createConfigMapWithNamespace, hk,
          reportedCauses_append, reportedCauses]

/-- In every run in which a `kubectl ... configmap` call fails, exactly one cause is handed to
`utils.HandleErrorAndExit`, and it is nil. -/
theorem addApiCmd_Run_failed_create_cause (w : World) (f : Flags)
    (h : ∃ x ∈ configmapCalls (addApiCmd_Run w f).trace, x.2.2.2.2 ≠ none) :
    reportedCauses (addApiCmd_Run w f).trace = [none] := by
  by_cases hk : w.KubernetesMode = true
  · by_cases hflags : f.flagApiName = "" ∨ f.flagSwaggerFilePath = ""
    · simp [addApiCmd_Run, hk, hflags, HandleErrorAndExit, configmapCalls] at h
    · have hn : f.flagApiName ≠ "" := fun h0 => hflags (Or.inl h0)
      have hp : f.flagSwaggerFilePath ≠ "" := fun h0 => hflags (Or.inr h0)
      cases hs : w.stat f.flagSwaggerFilePath with
      | error e => simp [addApiCmd_Run, hk, hflags, hs, configmapCalls] at h
      | ok mode =>
        cases mode with
        | dir =>
          rw [addApiCmd_Run_dir w f hk hn hp hs] at h ⊢
          cases h0 : w.kubectlConfigmap [.println "creating configmap with swagger definition"]
              w.K8sCreate (f.flagApiName ++ "-swagger")
              (w.Join f.flagSwaggerFilePath (filepath_FromSlash "Meta-information/swagger.yaml"))
              f.flagNamespace with
          | some e => simp [reportedCauses]
          | none =>
            rw [h0] at h
            simp only [] at h ⊢
            generalize htr0 : ([.println "creating configmap with swagger definition",
                .configmap w.K8sCreate (f.flagApiName ++ "-swagger")
                  (w.Join f.flagSwaggerFilePath
                    (filepath_FromSlash "Meta-information/swagger.yaml"))
                  f.flagNamespace none] : List Event) = tr0 at h ⊢
            have hc0 : ∀ x ∈ configmapCalls tr0, x.2.2.2.2 = none := by
              subst htr0; simp [configmapCalls]
            have hr0 : reportedCauses tr0 = [] := by
              subst htr0; simp [reportedCauses]
            obtain ⟨l1, hl1, -, -, hret1, -⟩ := handleBalInterceptors_spec w tr0
              (f.flagApiName ++ "-interceptors") f.flagSwaggerFilePath "create" f.flagNamespace
            obtain ⟨hbr, hbe⟩ := handleBalInterceptors_causes w tr0
              (f.flagApiName ++ "-interceptors") f.flagSwaggerFilePath "create" f.flagNamespace
            cases hb : (handleBalInterceptors w tr0 (f.flagApiName ++ "-interceptors")
                f.flagSwaggerFilePath "create" f.flagNamespace).out with
            | exit c =>
              rw [Res.bind_exit _ _ c hb] at h ⊢
              rcases hbe c hb with hcause | hcalls
              · simpa [hr0] using hcause
              · exfalso
                obtain ⟨x, hx, hxe⟩ := h
                simp only [] at hx
                rw [hcalls] at hx
                exact hxe (hc0 x hx)
            | ret bal =>
              rw [Res.bind_ret _ _ bal hb] at h ⊢
              have hc1 : ∀ x ∈ configmapCalls (handleBalInterceptors w tr0
                  (f.flagApiName ++ "-interceptors") f.flagSwaggerFilePath "create"
                  f.flagNamespace).trace, x.2.2.2.2 = none := by
                intro x hx
                rw [hl1, configmapCalls_append, List.mem_append] at hx
                rcases hx with hx | hx
                · exact hc0 x hx
                · exact (hret1 bal hb).1 x hx
              have hr1 := (hbr bal hb).trans hr0
              generalize (handleBalInterceptors w tr0 (f.flagApiName ++ "-interceptors")
                f.flagSwaggerFilePath "create" f.flagNamespace).trace = tr1 at h hc1 hr1 ⊢
              obtain ⟨l2, hl2, -, -, hret2, -⟩ := handleJavaInterceptors_spec w tr1
                f.flagSwaggerFilePath "create" f.flagNamespace f.flagApiName
              obtain ⟨hjr, hje⟩ := handleJavaInterceptors_causes w tr1
                f.flagSwaggerFilePath "create" f.flagNamespace f.flagApiName
              cases hj : (handleJavaInterceptors w tr1 f.flagSwaggerFilePath "create"
                  f.flagNamespace f.flagApiName).out with
              | exit c =>
                rw [Res.bind_exit _ _ c hj] at h ⊢
                rcases hje c hj with hcause | hcalls
                · simpa [hr1] using hcause
                · exfalso
                  obtain ⟨x, hx, hxe⟩ := h
                  simp only [] at hx
                  rw [hcalls] at hx
                  exact hxe (hc1 x hx)
              | ret java =>
                exfalso
                rw [Res.bind_ret _ _ java hj] at h
                obtain ⟨l3, hl3, hc3, -⟩ := createAPI_spec w
                  (handleJavaInterceptors w tr1 f.flagSwaggerFilePath "create" f.flagNamespace
                    f.flagApiName).trace f.flagApiName f.flagNamespace
                  (f.flagApiName ++ "-swagger") f.flagReplicas "" bal f.flagOverride java
                obtain ⟨x, hx, hxe⟩ := h
                rw [hl3, configmapCalls_append, hc3, List.append_nil, hl2,
                  configmapCalls_append, List.mem_append] at hx
                rcases hx with hx | hx
                · exact hxe (hc1 x hx)
                · rw [(hret2 java hj).2, List.mem_map] at hx
                  obtain ⟨p, -, rfl⟩ := hx
                  exact hxe rfl
        | regular =>
          rw [addApiCmd_Run_regular w f hk hn hp hs] at h ⊢
          cases h0 : w.kubectlConfigmap [.println "creating configmap with swagger definition"]
              w.K8sCreate (f.flagApiName ++ "-swagger") f.flagSwaggerFilePath f.flagNamespace with
          | some e => simp [reportedCauses]
          | none =>
            exfalso
            rw [h0] at h
            simp only [] at h
            obtain ⟨l, hl, hc, -⟩ := createAPI_spec w
              [.println "creating configmap with swagger definition",
                .configmap w.K8sCreate (f.flagApiName ++ "-swagger") f.flagSwaggerFilePath
                  f.flagNamespace none]
              f.flagApiName f.flagNamespace (f.flagApiName ++ "-swagger") f.flagReplicas ""
              "" f.flagOverride .nil
            rw [hl, configmapCalls_append, hc] at h
            simp [configmapCalls] at h
        | other =>
          exfalso
          rw [addApiCmd_Run_other w f hk hn hp hs] at h
          obtain ⟨l, hl, hc, -⟩ := createAPI_spec w [] f.flagApiName f.flagNamespace
            (f.flagApiName ++ "-swagger") f.flagReplicas "" "" f.flagOverride .nil
          rw [hl, configmapCalls_append, hc] at h
          simp [configmapCalls] at h
  · simp [addApiCmd_Run, hk, HandleErrorAndExit, configmapCalls] at h

/-- C11 (the code breaks it): when the create of the swagger object fails (directory form and
single-file form), when the create of the interceptor object fails and when the create of a
library object fails, the create call returned the error `exit status 1` and the cause handed
to `utils.HandleErrorAndExit` is nil. -/
theorem C11_failed_create_reported_without_cause :
    ((addApiCmd_Run exWorldSwaggerFails exFlags).trace =
      [.println "creating configmap with swagger definition",
        .configmap "create" "petstore-swagger" "proj/Meta-information/swagger.yaml" "wso2"
          (some "exit status 1"),
        .handleErrorAndExit "Error creating configmap" none]) ∧
    ((addApiCmd_Run exWorldSwaggerFails exFlagsFile).trace =
      [.println "creating configmap with swagger definition",
        .configmap "create" "petstore-swagger" "swagger.yaml" "wso2" (some "exit status 1"),
        .handleErrorAndExit "Error creating configmap" none]) ∧
    ((addApiCmd_Run exWorldInterceptorsCreateFails exFlags).trace =
      [.println "creating configmap with swagger definition",
        .configmap "create" "petstore-swagger" "proj/Meta-information/swagger.yaml" "wso2" none,
        .println "creating configmap with ballerina interceptors",
        .configmap "create" "petstore-interceptors" "proj/Interceptors" "wso2"
          (some "exit status 1"),
        .handleErrorAndExit "Error creating configmap for interceptors" none]) ∧
    ((addApiCmd_Run exWorldLibraryCreateFails exFlags).trace =
      [.println "creating configmap with swagger definition",
        .configmap "create" "petstore-swagger" "proj/Meta-information/swagger.yaml" "wso2" none,
        .println "creating configmap with java interceptor petstore-a.jar",
        .configmap "create" "petstore-a.jar" "proj/libs/a.jar" "wso2" none,
        .println "creating configmap with java interceptor petstore-b.jar",
        .configmap "create" "petstore-b.jar" "proj/libs/b.jar" "wso2" (some "exit status 1"),
        .handleErrorAndExit "Error creating configmap for java-interceptorpetstore-b.jar"
          none]) :=
  ⟨by decide, by decide, by decide, by decide⟩

end Apictl
